import Mathlib

/-!
Shallow embedding of the mention/reply pipeline of the `flare_ai_social`
repository (files `twitter/service.py` and `telegram/service.py`), together
with theorems checking the specification's claims about it.

Conventions: Python strings are Lean `String`s (Python indexing/slicing is by
code point, matching Lean's `Char`-based view); machine integers are `Nat`/`Int`;
Python exceptions are an explicit `Except` error channel; the network is
abstracted to a script assigning an outcome to each attempt number.
-/

set_option maxRecDepth 8192

namespace FlareSocial

/-- Python `str.lower()` restricted to its ASCII case mapping, as a
character-wise map. -/
def pyLower (s : String) : String := String.mk (s.data.map Char.toLower)

/-- Python `str.upper()` restricted to its ASCII case mapping. -/
def pyUpper (s : String) : String := String.mk (s.data.map Char.toUpper)

/-- Python slice `s[a:b]` (clamping, by code points). -/
def pySlice (s : String) (a b : Nat) : String := String.mk ((s.data.take b).drop a)

/-- Split on every occurrence of a one-character separator, keeping empty
pieces (Python `s.split(sep)` for a one-character `sep`). -/
def splitOnCharAux (sep : Char) : List Char → List Char → List (List Char)
  | [], acc => [acc.reverse]
  | c :: rest, acc =>
    if c = sep then acc.reverse :: splitOnCharAux sep rest []
    else splitOnCharAux sep rest (c :: acc)

/-- Python `s.split(sep)` for a one-character separator. -/
def pySplit (s : String) (sep : Char) : List String :=
  (splitOnCharAux sep s.data []).map String.mk

/-- Python `str.strip()`: drop leading and trailing whitespace. -/
def pyStrip (s : String) : String :=
  String.mk (((s.data.dropWhile Char.isWhitespace).reverse.dropWhile Char.isWhitespace).reverse)

/-- Index of the first occurrence of `pat` in `s`, as Python `str.find` /
the `in` substring test. -/
def findSub (pat : List Char) : List Char → Option Nat
  | [] => if pat = [] then some 0 else none
  | c :: rest =>
    if pat.isPrefixOf (c :: rest) then some 0
    else (findSub pat rest).map (· + 1)

/-- Removal pass of Python `s.replace(pat, "")` for a nonempty pattern:
delete every non-overlapping occurrence of `pat`, scanning left to right.
The first argument is fuel; `fuel = length of the scanned list` suffices. -/
def removeAllGo (pat : List Char) : Nat → List Char → List Char
  | _, [] => []
  | 0, s => s
  | fuel + 1, c :: rest =>
    if pat.isPrefixOf (c :: rest) then removeAllGo pat fuel ((c :: rest).drop pat.length)
    else c :: removeAllGo pat fuel rest

/-- Python `s.replace(pat, "")`: remove every occurrence of `pat` from `s`
(for an empty pattern Python returns `s` unchanged). -/
def pyRemoveAll (pat : String) (s : String) : String :=
  if pat.isEmpty then s else String.mk (removeAllGo pat.data s.data.length s.data)

/-! ## Reply truncation (`TwitterBot.handle_mention`)

`twitter/service.py` lines 479-482: `max_chars = 280`; a longer generated
reply is cut to `max_chars - 3` characters and `"..."` is appended. -/

/-- Character limit applied to generated replies (`max_chars` in
`TwitterBot.handle_mention`). -/
def max_chars : Nat := 280

/-- Truncation step of `TwitterBot.handle_mention`:
`if len(response_text) > max_chars: response_text = response_text[: max_chars - 3] + "..."`. -/
def truncateReply (s : String) : String :=
  if max_chars < s.length then String.mk (s.data.take (max_chars - 3)) ++ "..." else s

/-! ## Reply dispatch with retry (`TwitterBot.post_tweet` / `TwitterBot.post_reply`)

The network is abstracted to a script: attempt number `n` (equal to the
`retry_count` argument of the recursive Python functions) is answered by
`script n`, which is either an HTTP response (status code, plus the id found
at `result["data"]["id"]` when the body is read), a connection timeout
(`TimeoutError`), or an unexpected exception. The functions return the
Python return value together with the list of backoff sleeps performed. -/

/-- Outcome of one HTTP POST attempt as seen by the retry logic. -/
inductive AttemptOutcome where
  | resp (status : Nat) (id : String)
  | timeout
  | exc
deriving DecidableEq, Repr

/-- Result of a dispatch call: the returned post id (or `None`) and the
backoff sleeps performed, in order. -/
structure DispatchTrace where
  result : Option String
  sleeps : List Nat
deriving DecidableEq, Repr

/-- Prefix a backoff sleep to a dispatch trace. -/
def withSleep (d : Nat) (t : DispatchTrace) : DispatchTrace := ⟨t.result, d :: t.sleeps⟩

/-- Body of `TwitterBot.post_tweet` (lines 147-211), as structural recursion on
a fuel bound; the wrapper passes fuel `max_retries + 1`, which the guard
`retry_count < max_retries` on every recursive call keeps from running out.
Branches, in source order: status 200/201 returns the id; status `>= 500`
retries after `2**retry_count * 2` seconds; status 429 retries after
`2**retry_count * 10` seconds; any other status returns `None`; a timeout
retries after `2**retry_count * 5` seconds (else `None`); any other
exception returns `None` immediately. -/
def post_tweet_go (script : Nat → AttemptOutcome) (maxRetries : Nat) :
    Nat → Nat → DispatchTrace
  | 0, _ => ⟨none, []⟩
  | fuel + 1, retryCount =>
    match script retryCount with
    | .resp status id =>
      if status = 200 ∨ status = 201 then ⟨some id, []⟩
      else if 500 ≤ status ∧ retryCount < maxRetries then
        withSleep (2 ^ retryCount * 2) (post_tweet_go script maxRetries fuel (retryCount + 1))
      else if status = 429 ∧ retryCount < maxRetries then
        withSleep (2 ^ retryCount * 10) (post_tweet_go script maxRetries fuel (retryCount + 1))
      else ⟨none, []⟩
    | .timeout =>
      if retryCount < maxRetries then
        withSleep (2 ^ retryCount * 5) (post_tweet_go script maxRetries fuel (retryCount + 1))
      else ⟨none, []⟩
    | .exc => ⟨none, []⟩

/-- Wrapper `TwitterBot.post_tweet(text)` with default `retry_count=0`. -/
def post_tweet (script : Nat → AttemptOutcome) (maxRetries : Nat) : DispatchTrace :=
  post_tweet_go script maxRetries (maxRetries + 1) 0

/-- An outcome the retry logic reacts to by retrying (given a remaining
retry budget): a 5xx response, a 429 response, or a timeout. -/
def RetryableOutcome (o : AttemptOutcome) : Prop :=
  o = .timeout ∨ ∃ st id, o = .resp st id ∧ (500 ≤ st ∨ st = 429)

/-- Script answering every attempt with HTTP 500. -/
def scriptAll500 : Nat → AttemptOutcome := fun _ => .resp 500 ""

/-- Script answering every attempt with HTTP 202 (a 2xx code the dispatcher
does not treat as success). -/
def scriptAll202 : Nat → AttemptOutcome := fun _ => .resp 202 "id202"

/-- Script: HTTP 429 on attempt 0, then HTTP 201 with id "id-from-retry". -/
def script429then201 : Nat → AttemptOutcome :=
  fun n => if n = 0 then .resp 429 "" else .resp 201 "id-from-retry"

/-- A Telegram message entity (`type`, `offset`, `length`). -/
structure MessageEntity where
  type : String
  offset : Nat
  length : Nat
deriving DecidableEq, Repr

/-- Observable actions of `TelegramBot.handle_message`: the typing
indicator (`send_chat_action`), a call to the text generator
(`ai_provider.generate_content`), and an outbound reply
(`update.message.reply_text`). -/
inductive TgAction where
  | sendChatAction (action : String)
  | generate (prompt : String)
  | replyText (text : String)
deriving DecidableEq, Repr

/-- Refusal notice sent to unauthorized users in private chats. -/
def authRefusalText : String := "Sorry, you're not authorized to use this bot."

/-- Fallback reply sent when the generation call raises. -/
def genFallbackText : String :=
  "I'm having trouble processing your request. Please try again later."

/-- Embedding of `TelegramBot._is_user_allowed` (lines 68-85): an empty allowed list
admits every user; otherwise membership decides. -/
def is_user_allowed (allowedUserIds : List Int) (userId : Int) : Bool :=
  if allowedUserIds.isEmpty then true else allowedUserIds.contains userId

/-- Span of `text` covered by an entity: `message_text[offset : offset + length]`. -/
def mentionSpan (text : String) (e : MessageEntity) : String :=
  pySlice text e.offset (e.offset + e.length)

/-- Match test of mention-detection mechanism 1 in `handle_message` (lines
336-354): the entity has type `"mention"` and its resolved span, stripped of
a leading `@` and lower-cased, equals the lower-cased bot username. -/
def entityMatches (botUsername : String) (text : String) (e : MessageEntity) : Bool :=
  e.type = "mention" ∧
    (let mt := mentionSpan text e
     (if "@".data.isPrefixOf mt.data then pyLower (String.mk (mt.data.drop 1))
      else pyLower mt) = pyLower botUsername)

/-- Mention-detection mechanism 1 of `handle_message` (lines 335-359): scan
the entities in order; at the first matching one, report the message as
addressed and strip the matched span's text from the message via
`message_text.replace(mention_text, "").strip()`. -/
def detectEntityMention (botUsername : String) (text : String) :
    List MessageEntity → Bool × String
  | [] => (false, text)
  | e :: rest =>
    if entityMatches botUsername text e then
      (true, pyStrip (pyRemoveAll (mentionSpan text e) text))
    else detectEntityMention botUsername text rest

/-- Mention-detection mechanism 2 of `handle_message` (lines 362-380): for
each of the variations `@username` and `@username.lower()`, test a
case-insensitive substring match; on the first hit, strip the
case-preserving occurrence found at the matched index (again via
`str.replace`, so every occurrence of that text) and stop. -/
def detectTextMention (botUsername : String) (text : String) : Bool × String :=
  let tryVariation : String → Option String := fun variation =>
    match findSub (pyLower variation).data (pyLower text).data with
    | some idx =>
      some (pyStrip (pyRemoveAll (pySlice text idx (idx + variation.length)) text))
    | none => none
  match tryVariation ("@" ++ botUsername) with
  | some t => (true, t)
  | none =>
    match tryVariation ("@" ++ pyLower botUsername) with
    | some t => (true, t)
    | none => (false, text)

/-- Mention-detection mechanism 3 of `handle_message` (lines 383-399): the
message replies to a message whose author id is the bot's id (the Python
guard `if bot_id and ...` makes a bot id of `0` falsy). -/
def detectReplyMention (botId : Int) (replyToUserId : Option Int) : Bool :=
  match replyToUserId with
  | some rid => decide (botId ≠ 0) && decide (rid = botId)
  | none => false

/-- Group-chat mention detection of `handle_message`: mechanisms 1-3 in
precedence order, threading the possibly stripped message text. -/
def detectGroupMention (botId : Int) (botUsername : String) (text : String)
    (entities : List MessageEntity) (replyToUserId : Option Int) : Bool × String :=
  let r1 := detectEntityMention botUsername text entities
  if r1.1 then r1
  else
    let r2 := if botUsername ≠ "" then detectTextMention botUsername text else (false, text)
    if r2.1 then r2
    else (detectReplyMention botId replyToUserId, text)

/-- Chat types treated as group contexts by `handle_message` (line 302). -/
def isGroupChatType (chatType : String) : Bool :=
  chatType = "group" || chatType = "supergroup" || chatType = "channel"

/-- Embedding of `TelegramBot.handle_message` (lines 262-481) after its initial guards:
group mention detection with early return when not addressed, substitution
of a greeting for an emptied mention-only message, the access-control check
(silent in groups, explicit refusal in private chats), then typing
indicator, generation and reply (with the fixed fallback reply when the
generation call raises, modelled by `ai` returning `none`). -/
def handle_message (allowedUserIds : List Int) (botId : Int) (botUsername : String)
    (chatType : String) (userId : Int) (text : String)
    (entities : List MessageEntity) (replyToUserId : Option Int)
    (ai : String → Option String) : List TgAction :=
  let isGroup := isGroupChatType chatType
  let isPrivate := chatType = "private"
  let det := if isGroup then detectGroupMention botId botUsername text entities replyToUserId
             else (true, text)
  if isGroup && !det.1 then []
  else
    let messageText := if isGroup && det.2.isEmpty then "Hello" else det.2
    if !is_user_allowed allowedUserIds userId then
      if isPrivate then [.replyText authRefusalText] else []
    else
      [.sendChatAction "typing", .generate messageText] ++
        (match ai messageText with
         | some t => [.replyText t]
         | none => [.replyText genFallbackText])

/-- Removal of exactly the span `[a, b)` from a text, used to state what the
spec's entity-match sentence asks for (contrast with `str.replace`, which
removes every occurrence of the span's text). -/
def removeSpan (text : String) (a b : Nat) : String :=
  String.mk (text.data.take a ++ text.data.drop b)

/-! ## Platform timestamp parsing (`TwitterBot.process_tweets`)

`process_tweets` parses `tweet["created_at"]` with
`time.strptime(value, "%a %b %d %H:%M:%S %z %Y")` and converts the result
with `calendar.timegm`, which reads the broken-down fields as UTC and
ignores the parsed zone offset. An unparseable value raises `ValueError`
(modelled as `none`). -/

/-- Digit string to number; `none` when empty or not all digits. -/
def parseNatDigits (s : String) : Option Nat :=
  if s.length ≠ 0 ∧ s.data.all Char.isDigit then
    some (s.data.foldl (fun a c => a * 10 + (c.toNat - 48)) 0)
  else none

/-- Abbreviated weekday names accepted by `%a` (lower-cased). -/
def dayNames : List String := ["mon", "tue", "wed", "thu", "fri", "sat", "sun"]

/-- Abbreviated month names accepted by `%b` (lower-cased), in order. -/
def monthNames : List String :=
  ["jan", "feb", "mar", "apr", "may", "jun", "jul", "aug", "sep", "oct", "nov", "dec"]

/-- Whitespace as Python's `str.isspace` / regex `\s` classify it — the
characters matched by the `\s+` separators of the compiled strptime
pattern. -/
def pyIsSpace (c : Char) : Bool :=
  let n := c.toNat
  (9 ≤ n && n ≤ 13) || (28 ≤ n && n ≤ 32) || n = 133 || n = 160 || n = 5760 ||
    (8192 ≤ n && n ≤ 8202) || n = 8232 || n = 8233 || n = 8239 || n = 8287 ||
    n = 12288

/-- Splitting on runs of whitespace, dropping empty pieces (Python
`str.split()` without a separator). -/
def pySplitWsAux : List Char → List Char → List (List Char)
  | [], acc => if acc.isEmpty then [] else [acc.reverse]
  | c :: rest, acc =>
    if pyIsSpace c then
      if acc.isEmpty then pySplitWsAux rest []
      else acc.reverse :: pySplitWsAux rest []
    else pySplitWsAux rest (c :: acc)

/-- Tokens of a string separated by whitespace runs. -/
def pySplitWs (s : String) : List String := (pySplitWsAux s.data []).map String.mk

/-- Optional fraction after the seconds of a `%z` offset: nothing, or a dot
followed by one to six digits (`\.\d{1,6}`). -/
def validZoneFrac : List Char → Bool
  | [] => true
  | '.' :: ds => 1 ≤ ds.length && ds.length ≤ 6 && ds.all Char.isDigit
  | _ => false

/-- Optional seconds of a `%z` offset: nothing, or two digits below 60 then
an optional fraction; `_strptime` demands the second colon exactly when the
first was used (else `Inconsistent use of :` / a failed `int` conversion,
both `ValueError`). -/
def validZoneSec (withColon : Bool) (l : List Char) : Bool :=
  match l with
  | [] => true
  | _ =>
    let l2 : Option (List Char) :=
      if withColon then
        match l with
        | ':' :: r => some r
        | _ => none
      else some l
    match l2 with
    | some (s1 :: s2 :: r) =>
      s1.isDigit && decide (s1.toNat ≤ 53) && s2.isDigit && validZoneFrac r
    | _ => false

/-- Zone field accepted by `%z` and `_strptime`'s follow-up conversion:
`Z` (case-sensitive), or a sign, a two-digit hour, minutes below 60, and
optional seconds with optional fraction, the two colons used consistently —
`±HHMM`, `±HH:MM`, `±HHMMSS[.f{1,6}]`, `±HH:MM:SS[.f{1,6}]`. Only validity
matters: `calendar.timegm` ignores the offset value. -/
def validZone (s : String) : Bool :=
  match s.data with
  | ['Z'] => true
  | c :: h1 :: h2 :: rest =>
    (c = '+' || c = '-') && h1.isDigit && h2.isDigit &&
      (match rest with
       | ':' :: m1 :: m2 :: r =>
         m1.isDigit && decide (m1.toNat ≤ 53) && m2.isDigit && validZoneSec true r
       | m1 :: m2 :: r =>
         m1.isDigit && decide (m1.toNat ≤ 53) && m2.isDigit && validZoneSec false r
       | _ => false)
  | _ => false

/-- Days before the first of month `m` in a non-leap year. -/
def daysBeforeMonth (m : Nat) : Nat :=
  [0, 31, 59, 90, 120, 151, 181, 212, 243, 273, 304, 334].getD (m - 1) 0

/-- Gregorian leap-year test. -/
def isLeapYear (y : Nat) : Bool := y % 4 = 0 && (y % 100 ≠ 0 || y % 400 = 0)

/-- Length of month `m` of year `y`, as `datetime.date` validates the day
(`_strptime` constructs one, so an out-of-range day raises `ValueError`). -/
def daysInMonth (y m : Nat) : Nat :=
  if m = 2 then (if isLeapYear y then 29 else 28)
  else if m = 4 ∨ m = 6 ∨ m = 9 ∨ m = 11 then 30
  else 31

/-- Proleptic Gregorian ordinal of `(y, m, d)` (`datetime.date.toordinal`,
day 1 = 0001-01-01), with the day count added without validation against the
month, exactly as `calendar.timegm` does. -/
def toOrdinal (y m d : Nat) : Nat :=
  (365 * (y - 1) + (y - 1) / 4 + (y - 1) / 400 - (y - 1) / 100) + daysBeforeMonth m +
    (if 2 < m ∧ isLeapYear y then 1 else 0) + d

/-- Ordinal of the epoch 1970-01-01. -/
def epochOrdinal : Nat := 719163

/-- Python `calendar.timegm` on broken-down UTC fields. -/
def timegm (y m d h mi s : Nat) : Int :=
  ((toOrdinal y m d : Int) - (epochOrdinal : Int)) * 86400 + h * 3600 + mi * 60 + s

/-- Parse of a platform timestamp under the fixed format
`"%a %b %d %H:%M:%S %z %Y"` followed by `calendar.timegm`, e.g.
`"Wed Feb 19 19:48:22 +0000 2025"`. Mirrors `time.strptime`: the format's
blanks compile to `\s+`, so fields are separated by runs of whitespace with
none allowed at either end of the string; names match case-insensitively;
the day must exist in the parsed month and year (`_strptime` constructs a
`datetime.date`, so `Feb 29` of a non-leap year — like a year outside
`datetime`'s range, which four digits can only undershoot at `0000` —
raises `ValueError`, folded into `none`); hour is at most 23, minute at
most 59, second at most 61; the zone follows `%z`. `calendar.timegm` then
reads the broken-down fields as UTC, ignoring the parsed zone offset. -/
def parseTwitterTime (s : String) : Option Int :=
  let startsWs := match s.data with | c :: _ => pyIsSpace c | [] => false
  let endsWs := match s.data.reverse with | c :: _ => pyIsSpace c | [] => false
  if startsWs || endsWs then none
  else
    match pySplitWs s with
    | [wd, mon, day, hms, zone, year] =>
      if dayNames.contains (pyLower wd) then
        match monthNames.findIdx? (· = pyLower mon) with
        | some mIdx =>
          match parseNatDigits day, parseNatDigits year with
          | some d, some y =>
            if 1 ≤ d ∧ d ≤ daysInMonth y (mIdx + 1) ∧ day.length ≤ 2 ∧
                year.length = 4 ∧ 1 ≤ y ∧ validZone zone then
              match pySplit hms ':' with
              | [hh, mm, ss] =>
                match parseNatDigits hh, parseNatDigits mm, parseNatDigits ss with
                | some h, some mi, some sec =>
                  if h ≤ 23 ∧ mi ≤ 59 ∧ sec ≤ 61 ∧
                      hh.length ≤ 2 ∧ mm.length ≤ 2 ∧ ss.length ≤ 2 then
                    some (timegm y (mIdx + 1) d h mi sec)
                  else none
                | _, _, _ => none
              | _ => none
            else none
          | _, _ => none
        | none => none
      else none
    | _ => none

/-! ## JSON values and Python dictionary operations

The search API hands `TwitterBot` parsed JSON (`response.json()`); tweets
travel through `_extract_tweets_from_response` and `process_tweets` as
Python dicts. `JValue` models a parsed JSON value, `TweetD` an
insertion-ordered dict with string keys. Operations that Python's runtime
can fault carry an explicit error channel. -/

/-- A parsed JSON value. -/
inductive JValue where
  | null
  | bool (b : Bool)
  | num (n : Int)
  | str (s : String)
  | arr (items : List JValue)
  | obj (fields : List (String × JValue))

/-- A Python dict with string keys, as produced for each extracted tweet. -/
abbrev TweetD := List (String × JValue)

/-- Python runtime errors relevant here. `ValueError` does not appear: the
code paths that raise it are caught locally and are modelled directly. -/
inductive PyErr where
  | typeError
  | keyError
  | attributeError
deriving DecidableEq, Repr

/-- First binding of `k` in an association list (Python dict lookup). -/
def jLookup (fields : List (String × JValue)) (k : String) : Option JValue :=
  match fields with
  | [] => none
  | (k', v) :: rest => if k' = k then some v else jLookup rest k

/-- Python `==` between a value and a string literal: values of other types
compare unequal without error. -/
def jEqStr (v : JValue) (s : String) : Bool :=
  match v with
  | .str t => t = s
  | _ => false

/-- Python `.get(k, d)`: defined on dicts, an `AttributeError` on anything
else. -/
def pyGet (v : JValue) (k : String) (d : JValue) : Except PyErr JValue :=
  match v with
  | .obj fs => .ok ((jLookup fs k).getD d)
  | _ => .error .attributeError

/-- Python subscript `v[k]` for a string key: dict lookup (`KeyError` when
absent), `TypeError` on non-dicts. -/
def pySubscript (v : JValue) (k : String) : Except PyErr JValue :=
  match v with
  | .obj fs =>
    match jLookup fs k with
    | some x => .ok x
    | none => .error .keyError
  | _ => .error .typeError

/-- Python `k in v` for a string `k`: key test on dicts, membership on
lists, substring test on strings, `TypeError` otherwise. -/
def pyContains (k : String) (v : JValue) : Except PyErr Bool :=
  match v with
  | .obj fs => .ok (jLookup fs k).isSome
  | .arr xs => .ok (xs.any (jEqStr · k))
  | .str s => .ok (findSub k.data s.data).isSome
  | _ => .error .typeError

/-- Python iteration `for x in v`: elements of a list, keys of a dict,
one-character strings of a string, `TypeError` otherwise. -/
def pyIter (v : JValue) : Except PyErr (List JValue) :=
  match v with
  | .arr xs => .ok xs
  | .obj fs => .ok (fs.map fun p => .str p.1)
  | .str s => .ok (s.data.map fun c => .str (String.mk [c]))
  | _ => .error .typeError

/-- Python `.lower()` on a value: defined on strings, an `AttributeError`
otherwise. -/
def pyLowerJ (v : JValue) : Except PyErr String :=
  match v with
  | .str s => .ok (pyLower s)
  | _ => .error .attributeError

/-! ## Mention filter (`TwitterBot.process_tweets`, lines 406-453) -/

/-- Loop over `tweet["entities"]["user_mentions"]` (lines 438-442): stop at
the first entry whose `@`-prefixed lower-cased screen name equals the
lower-cased monitored account. -/
def mentionLoop (account : String) : List JValue → Except PyErr Bool
  | [] => .ok false
  | m :: rest => do
    let sn ← pyGet m "screen_name" (.str "")
    let snl ← pyLowerJ sn
    if "@" ++ snl = pyLower account then pure true else mentionLoop account rest

/-- Body of one `process_tweets` loop iteration: `true` when the tweet is
kept. A missing required key, an unparseable timestamp (`ValueError`,
caught), a too-old timestamp, and a non-matching mention list all yield
`false`; shape faults Python would raise outside the local
`except (ValueError, KeyError)` handler surface as errors. -/
def processOne (account : String) (now window : Int) (t : TweetD) : Except PyErr Bool :=
  if !((jLookup t "id_str").isSome && (jLookup t "created_at").isSome) then pure false
  else
    match jLookup t "created_at" with
    | none => pure false
    | some ca => do
      match ca with
      | .str s =>
        match parseTwitterTime s with
        | none => pure false
        | some ts =>
          if ts < now - window then pure false
          else do
            let ents ← pyGet (.obj t) "entities" (.obj [])
            let ums ← pyGet ents "user_mentions" (.arr [])
            let ms ← pyIter ums
            mentionLoop account ms
      | _ => .error .typeError

/-- Embedding of `TwitterBot.process_tweets(tweets, account)`, with the clock and the
window (`self.polling_interval`) made explicit parameters: keep, in order,
the tweets that pass the required-key, recency and mention checks. -/
def process_tweets (tweets : List TweetD) (account : String) (now window : Int) :
    Except PyErr (List TweetD) :=
  match tweets with
  | [] => .ok []
  | t :: rest => do
    let keep ← processOne account now window t
    let r ← process_tweets rest account now window
    pure (if keep then t :: r else r)

/-- Screen name of a user-mention entry, read with defaulting lookups. -/
def mentionScreenName (m : JValue) : String :=
  match m with
  | .obj mfs =>
    match jLookup mfs "screen_name" with
    | some (.str sn) => sn
    | _ => ""
  | _ => ""

/-- Well-formedness of one user-mention entry: a dict whose `screen_name`,
when present, is a string. -/
def wfMention (m : JValue) : Bool :=
  match m with
  | .obj mfs =>
    match jLookup mfs "screen_name" with
    | some (.str _) => true
    | some _ => false
    | none => true
  | _ => false

/-- Screen names listed under `entities.user_mentions` of a tweet, read
with defaulting lookups (meaningful on well-formed tweets). -/
def mentionedScreenNames (t : TweetD) : List String :=
  match jLookup t "entities" with
  | some (.obj efs) =>
    match jLookup efs "user_mentions" with
    | some (.arr ms) => ms.map mentionScreenName
    | _ => []
  | _ => []

/-- Qualification policy as the specification states it: the mention has
both an `id` and a creation-timestamp field, the timestamp parses under the
fixed platform format to a UTC epoch at least `now - window`, and some
mentioned user's `@`-prefixed screen name equals the monitored handle
case-insensitively. -/
def mention_qualifies (account : String) (now window : Int) (t : TweetD) : Bool :=
  ((jLookup t "id_str").isSome && (jLookup t "created_at").isSome) &&
  (match jLookup t "created_at" with
   | some (.str s) =>
     match parseTwitterTime s with
     | some ts => decide (now - window ≤ ts)
     | none => false
   | _ => false) &&
  (mentionedScreenNames t).any (fun sn => "@" ++ pyLower sn = pyLower account)

/-- Well-formedness of a tweet dict, ruling out the shapes on which
`process_tweets` would raise outside its local handler: a `created_at`
value, when present, is a string; an `entities` value, when present, is a
dict whose `user_mentions`, when present, is a list of dicts whose
`screen_name` values, when present, are strings. -/
def WFTweet (t : TweetD) : Bool :=
  (match jLookup t "created_at" with
   | some (.str _) => true
   | some _ => false
   | none => true) &&
  (match jLookup t "entities" with
   | some (.obj efs) =>
     (match jLookup efs "user_mentions" with
      | some (.arr ms) => ms.all wfMention
      | some _ => false
      | none => true)
   | some _ => false
   | none => true)

/-! ## Mention extraction (`TwitterBot._extract_tweets_from_response`,
lines 349-404)

The whole traversal runs inside `try: ... except Exception: return []`, so
any shape fault discards everything gathered so far and yields `[]`. The
body is decomposed here into the per-entry and per-instruction steps of the
nested Python loops; `extract_tweets_body` is the `try` block and
`extract_tweets_from_response` adds the catch-all. -/

/-- Innermost loop body (lines 362-400): read one timeline entry, passing
the `__typename` guards `TimelineTimelineItem`, `TimelineTweet` and `Tweet`;
on full success build the normalized tweet dict with empty-string /
empty-dict defaults, on a failed guard produce nothing. -/
def processEntry (entry : JValue) : Except PyErr (Option TweetD) := do
  let content ← pyGet entry "content" (.obj [])
  let tn1 ← pyGet content "__typename" .null
  if jEqStr tn1 "TimelineTimelineItem" then do
    let itemContent ← pyGet content "itemContent" (.obj [])
    let tn2 ← pyGet itemContent "__typename" .null
    if jEqStr tn2 "TimelineTweet" then do
      let tweetResults ← pyGet itemContent "tweet_results" (.obj [])
      let result ← pyGet tweetResults "result" (.obj [])
      let tn3 ← pyGet result "__typename" .null
      if jEqStr tn3 "Tweet" then do
        let legacyData ← pyGet result "legacy" (.obj [])
        let core ← pyGet result "core" (.obj [])
        let userResults ← pyGet core "user_results" (.obj [])
        let userResult ← pyGet userResults "result" (.obj [])
        let userData ← pyGet userResult "legacy" (.obj [])
        let idv ← pyGet legacyData "id_str" (.str "")
        let cav ← pyGet legacyData "created_at" (.str "")
        let ftv ← pyGet legacyData "full_text" (.str "")
        let uidv ← pyGet legacyData "user_id_str" (.str "")
        let entv ← pyGet legacyData "entities" (.obj [])
        let snv ← pyGet userData "screen_name" (.str "")
        pure (some [("id_str", idv), ("created_at", cav), ("full_text", ftv),
          ("user_id_str", uidv), ("entities", entv),
          ("user", .obj [("screen_name", snv)])])
      else pure none
    else pure none
  else pure none

/-- Loop over the entries of one instruction. -/
def entriesLoop : List JValue → Except PyErr (List TweetD)
  | [] => .ok []
  | e :: rest => do
    let t? ← processEntry e
    let r ← entriesLoop rest
    pure (match t? with | some t => t :: r | none => r)

/-- One instruction (lines 358-361): only `type == "TimelineAddEntries"`
contributes, via its `entries` list. -/
def processInstruction (instr : JValue) : Except PyErr (List TweetD) := do
  let ty ← pyGet instr "type" .null
  if jEqStr ty "TimelineAddEntries" then do
    let entriesV ← pyGet instr "entries" (.arr [])
    let es ← pyIter entriesV
    entriesLoop es
  else pure []

/-- Loop over all instructions. -/
def instrsLoop : List JValue → Except PyErr (List TweetD)
  | [] => .ok []
  | i :: rest => do
    let a ← processInstruction i
    let b ← instrsLoop rest
    pure (a ++ b)

/-- The guard of line 354,
`"result" in response_data and "timeline" in response_data["result"]`,
with Python's short-circuit `and`. -/
def checkTimeline (responseData : JValue) : Except PyErr Bool := do
  let c1 ← pyContains "result" responseData
  if c1 then do
    let r ← pySubscript responseData "result"
    pyContains "timeline" r
  else pure false

/-- The `try` block of `_extract_tweets_from_response`: the guard, then the
instruction walk. -/
def extract_tweets_body (responseData : JValue) : Except PyErr (List TweetD) := do
  let cond ← checkTimeline responseData
  if cond then do
    let r ← pySubscript responseData "result"
    let tl ← pySubscript r "timeline"
    let instrsV ← pyGet tl "instructions" (.arr [])
    let instrs ← pyIter instrsV
    instrsLoop instrs
  else pure []

/-- Embedding of `TwitterBot._extract_tweets_from_response`: the `try` block under the
catch-all `except Exception: return []`. -/
def extract_tweets_from_response (responseData : JValue) : List TweetD :=
  match extract_tweets_body responseData with
  | .ok l => l
  | .error _ => []

/-! Specification-side reading of the extractor ("only entries matching
every `__typename`/`type` guard are extracted; all others are silently
skipped"), as a total traversal with defaulting lookups. -/

/-- Defaulting lookup: dict lookup with default, `d` on non-dicts. -/
def specGetD (v : JValue) (k : String) (d : JValue) : JValue :=
  match v with
  | .obj fs => (jLookup fs k).getD d
  | _ => d

/-- List reading of a value: the elements of a list, nothing otherwise. -/
def specItems (v : JValue) : List JValue :=
  match v with
  | .arr xs => xs
  | _ => []

/-- Specification-side per-entry extraction: the normalized record when
every guard passes, `none` otherwise. -/
def specEntry (entry : JValue) : Option TweetD :=
  let content := specGetD entry "content" (.obj [])
  if jEqStr (specGetD content "__typename" .null) "TimelineTimelineItem" then
    let itemContent := specGetD content "itemContent" (.obj [])
    if jEqStr (specGetD itemContent "__typename" .null) "TimelineTweet" then
      let result := specGetD (specGetD itemContent "tweet_results" (.obj [])) "result" (.obj [])
      if jEqStr (specGetD result "__typename" .null) "Tweet" then
        let legacyData := specGetD result "legacy" (.obj [])
        let userData := specGetD (specGetD (specGetD (specGetD result "core" (.obj []))
          "user_results" (.obj [])) "result" (.obj [])) "legacy" (.obj [])
        some [("id_str", specGetD legacyData "id_str" (.str "")),
          ("created_at", specGetD legacyData "created_at" (.str "")),
          ("full_text", specGetD legacyData "full_text" (.str "")),
          ("user_id_str", specGetD legacyData "user_id_str" (.str "")),
          ("entities", specGetD legacyData "entities" (.obj [])),
          ("user", .obj [("screen_name", specGetD userData "screen_name" (.str ""))])]
      else none
    else none
  else none

/-- Specification-side extraction: walk
`result → timeline → instructions[type == "TimelineAddEntries"] → entries`
and keep exactly the entries passing every guard. -/
def specExtract (responseData : JValue) : List TweetD :=
  let tl := specGetD (specGetD responseData "result" .null) "timeline" .null
  (specItems (specGetD tl "instructions" (.arr []))).flatMap fun i =>
    if jEqStr (specGetD i "type" .null) "TimelineAddEntries" then
      (specItems (specGetD i "entries" (.arr []))).filterMap specEntry
    else []

/-! ## OAuth 1.0a request signing (`TwitterBot._url_encode`,
`TwitterBot._get_oauth1_auth`, lines 65-131)

Strings are percent-encoded over their UTF-8 bytes
(`urllib.parse.quote(str(value), safe="")`); the HMAC-SHA1 digest is an
opaque library primitive and enters as a function parameter; base64 of the
digest is implemented. Python's `sorted` is a stable sort, modelled by
`List.insertionSort`; Python dicts are insertion-ordered association lists
with in-place overwrite on update. -/

/-- UTF-8 bytes of a string (`str.encode("utf-8")`). -/
def utf8Bytes (s : String) : List UInt8 := (s.data.map String.utf8EncodeChar).flatten

/-- Bytes `urllib.parse.quote` never encodes: ASCII alphanumerics and
`_ . - ~`. -/
def isUrlSafeByte (b : UInt8) : Bool :=
  (65 ≤ b.toNat && b.toNat ≤ 90) || (97 ≤ b.toNat && b.toNat ≤ 122) ||
    (48 ≤ b.toNat && b.toNat ≤ 57) ||
    b.toNat = 95 || b.toNat = 46 || b.toNat = 45 || b.toNat = 126

/-- Upper-case hex digit of a value below 16. -/
def hexUpper (n : Nat) : Char := if n < 10 then Char.ofNat (48 + n) else Char.ofNat (55 + n)

/-- Percent-encoding of one byte: kept verbatim when safe, `%XX` otherwise. -/
def encodeByte (b : UInt8) : List Char :=
  if isUrlSafeByte b then [Char.ofNat b.toNat]
  else ['%', hexUpper (b.toNat / 16), hexUpper (b.toNat % 16)]

/-- Embedding of `TwitterBot._url_encode`: RFC 3986 percent-encoding with an empty safe
set (`urllib.parse.quote(str(value), safe="")`). -/
def url_encode (s : String) : String := String.mk ((utf8Bytes s).map encodeByte).flatten

/-- Base64 alphabet. -/
def base64Alphabet : List Char :=
  "ABCDEFGHIJKLMNOPQRSTUVWXYZabcdefghijklmnopqrstuvwxyz0123456789+/".data

/-- Character of one 6-bit group. -/
def b64c (n : Nat) : Char := base64Alphabet.getD n 'A'

/-- Standard base64 of a byte list, with padding. -/
def b64encodeList : List UInt8 → List Char
  | [] => []
  | [a] => [b64c (a.toNat / 4), b64c (a.toNat % 4 * 16), '=', '=']
  | [a, b] =>
    let x := a.toNat * 256 + b.toNat
    [b64c (x / 1024), b64c (x / 16 % 64), b64c (x % 16 * 4), '=']
  | a :: b :: c :: rest =>
    let x := (a.toNat * 256 + b.toNat) * 256 + c.toNat
    b64c (x / 262144) :: b64c (x / 4096 % 64) :: b64c (x / 64 % 64) :: b64c (x % 64) ::
      b64encodeList rest

/-- Python `base64.b64encode(...).decode("utf-8")`. -/
def b64encode (bs : List UInt8) : String := String.mk (b64encodeList bs)

/-- Lexicographic comparison of character lists by code point, as Python
compares strings. -/
def charListLe : List Char → List Char → Bool
  | [], _ => true
  | _ :: _, [] => false
  | a :: as, b :: bs =>
    if a.toNat < b.toNat then true
    else if b.toNat < a.toNat then false
    else charListLe as bs

/-- Python string `<=`. -/
def strLe (s t : String) : Bool := charListLe s.data t.data

/-- Python tuple comparison on `(key, value)` pairs, as used by
`sorted(dict.items())`. -/
def pairRawLe (p q : String × String) : Bool :=
  if p.1 = q.1 then strLe p.2 q.2 else strLe p.1 q.1

/-- Sort key of line 101: compare parameters by percent-encoded key. -/
def EncKeyLe (p q : String × String) : Prop :=
  strLe (url_encode p.1) (url_encode q.1) = true

instance : DecidableRel EncKeyLe := fun p q =>
  inferInstanceAs (Decidable (strLe (url_encode p.1) (url_encode q.1) = true))

/-- Ordering of `sorted(oauth_params.items())` at line 128 (tuple order). -/
def RawItemLe (p q : String × String) : Prop := pairRawLe p q = true

instance : DecidableRel RawItemLe := fun p q =>
  inferInstanceAs (Decidable (pairRawLe p q = true))

/-- Ordering by raw key alone, as the specification words the header sort. -/
def RawKeyLe (p q : String × String) : Prop := strLe p.1 q.1 = true

instance : DecidableRel RawKeyLe := fun p q =>
  inferInstanceAs (Decidable (strLe p.1 q.1 = true))

/-- Python dict assignment `d[k] = v`: overwrite in place when the key
exists, append otherwise. -/
def dictSet (d : List (String × String)) (k v : String) : List (String × String) :=
  if d.any (·.1 = k) then d.map (fun p => if p.1 = k then (k, v) else p) else d ++ [(k, v)]

/-- Python `d.update(kvs)`. -/
def dictUpdate (d : List (String × String)) (kvs : List (String × String)) :
    List (String × String) :=
  kvs.foldl (fun acc p => dictSet acc p.1 p.2) d

/-- The six base OAuth 1.0a parameters of lines 83-90, in insertion order. -/
def oauthBaseParams (apiKey accessToken nonce timestamp : String) :
    List (String × String) :=
  [("oauth_consumer_key", apiKey), ("oauth_nonce", nonce),
   ("oauth_signature_method", "HMAC-SHA1"), ("oauth_timestamp", timestamp),
   ("oauth_token", accessToken), ("oauth_version", "1.0")]

/-- Names of the six base OAuth parameters. -/
def oauthKeys : List String :=
  ["oauth_consumer_key", "oauth_nonce", "oauth_signature_method",
   "oauth_timestamp", "oauth_token", "oauth_version"]

/-- Embedding of `TwitterBot._get_oauth1_auth(method, url, params, json_data)` with the
credentials, the per-call nonce and timestamp, and the HMAC-SHA1 primitive
as explicit parameters. Mirrors lines 83-131: merge query parameters and
OAuth parameters into one dict (the JSON body parameter is accepted and
never read); sort by percent-encoded key; join `key=value` with `&`; build
the base string from the upper-cased method, the URL up to `?`, and the
parameter string; sign with `encode(api_secret)&encode(access_secret)`;
emit the header from the OAuth parameters plus the signature, sorted as
tuples. -/
def get_oauth1_auth (apiKey apiSecret accessToken accessSecret nonce timestamp : String)
    (hmacSha1 : List UInt8 → List UInt8 → List UInt8) (method url : String)
    (params : List (String × String)) (jsonData : Option String) : String :=
  let oauthParams := oauthBaseParams apiKey accessToken nonce timestamp
  let allParams := dictUpdate (dictUpdate [] params) oauthParams
  let paramPairs := (List.insertionSort EncKeyLe allParams).map
    (fun p => url_encode p.1 ++ "=" ++ url_encode p.2)
  let paramString := String.intercalate "&" paramPairs
  let baseUrl := (pySplit url '?').headD ""
  let baseString := pyUpper method ++ "&" ++ url_encode baseUrl ++ "&" ++ url_encode paramString
  let signingKey := url_encode apiSecret ++ "&" ++ url_encode accessSecret
  let signature := b64encode (hmacSha1 (utf8Bytes signingKey) (utf8Bytes baseString))
  let oauthParams2 := dictSet oauthParams "oauth_signature" signature
  let headerParts := (List.insertionSort RawItemLe oauthParams2).map
    (fun p => url_encode p.1 ++ "=\"" ++ url_encode p.2 ++ "\"")
  let _ := jsonData
  "OAuth " ++ String.intercalate ", " headerParts

/-- The signing algorithm as the specification words it: the six OAuth
parameters merged with only the query parameters, every key and value
percent-encoded, pairs sorted by encoded key and joined `key=value` with
`&`; base string `UPPERCASEMETHOD&encode(base_url)&encode(param_string)`;
signing key `encode(consumer_secret)&encode(token_secret)`; signature
`base64(HMAC-SHA1)`; header `OAuth ` plus comma-joined `key="encoded_value"`
pairs sorted by raw key. -/
def sign_spec (apiKey apiSecret accessToken accessSecret nonce timestamp : String)
    (hmacSha1 : List UInt8 → List UInt8 → List UInt8) (method url : String)
    (params : List (String × String)) : String :=
  let oauthParams := oauthBaseParams apiKey accessToken nonce timestamp
  let merged := oauthParams ++ params
  let paramString := String.intercalate "&" ((List.insertionSort EncKeyLe merged).map
    (fun p => url_encode p.1 ++ "=" ++ url_encode p.2))
  let baseString := pyUpper method ++ "&" ++ url_encode ((pySplit url '?').headD "") ++ "&" ++
    url_encode paramString
  let signingKey := url_encode apiSecret ++ "&" ++ url_encode accessSecret
  let signature := b64encode (hmacSha1 (utf8Bytes signingKey) (utf8Bytes baseString))
  let headerItems := oauthParams ++ [("oauth_signature", signature)]
  "OAuth " ++ String.intercalate ", " ((List.insertionSort RawKeyLe headerItems).map
    (fun p => url_encode p.1 ++ "=\"" ++ url_encode p.2 ++ "\""))

/-! ## Concrete sample inputs used by boundary statements and witnesses -/

/-- A string of length 300. -/
def aaa300 : String := String.mk (List.replicate 300 'a')

/-- A platform timestamp. -/
def tsFeb19 : String := "Wed Feb 19 19:48:22 +0000 2025"

/-- UTC epoch of `tsFeb19`. -/
def epochFeb19 : Int := 1739994502

/-- A minimal well-formed tweet dict with the given timestamp and one
mentioned screen name. -/
def sampleTweet (ca sn : String) : TweetD :=
  [("id_str", .str "1"), ("created_at", .str ca),
   ("entities", .obj [("user_mentions", .arr [.obj [("screen_name", .str sn)]])])]

/-- A timeline entry passing every extractor guard. -/
def sampleEntryGood : JValue :=
  .obj [("content", .obj [("__typename", .str "TimelineTimelineItem"),
    ("itemContent", .obj [("__typename", .str "TimelineTweet"),
      ("tweet_results", .obj [("result", .obj [("__typename", .str "Tweet"),
        ("legacy", .obj [("id_str", .str "42"), ("created_at", .str tsFeb19),
          ("full_text", .str "hi @target"), ("user_id_str", .str "7"),
          ("entities", .obj [("user_mentions",
            .arr [.obj [("screen_name", .str "target")]])])]),
        ("core", .obj [("user_results", .obj [("result",
          .obj [("legacy", .obj [("screen_name", .str "alice")])])])])])])])])]

/-- The normalized tweet extracted from `sampleEntryGood`. -/
def sampleTweetGood : TweetD :=
  [("id_str", .str "42"), ("created_at", .str tsFeb19),
   ("full_text", .str "hi @target"), ("user_id_str", .str "7"),
   ("entities", .obj [("user_mentions", .arr [.obj [("screen_name", .str "target")]])]),
   ("user", .obj [("screen_name", .str "alice")])]

/-- A timeline entry failing the first `__typename` guard. -/
def sampleEntryBad : JValue :=
  .obj [("content", .obj [("__typename", .str "TimelineTimelineCursor")])]

/-- A search response with one passing and one guard-failing entry. -/
def sampleSearchResponse : JValue :=
  .obj [("result", .obj [("timeline", .obj [("instructions",
    .arr [.obj [("type", .str "TimelineAddEntries"),
      ("entries", .arr [sampleEntryGood, sampleEntryBad])]])])])]

/-- A timeline entry passing every guard whose `legacy` dict carries no
`created_at` (and none of the other optional fields). -/
def sampleEntryNoTimestamp : JValue :=
  .obj [("content", .obj [("__typename", .str "TimelineTimelineItem"),
    ("itemContent", .obj [("__typename", .str "TimelineTweet"),
      ("tweet_results", .obj [("result", .obj [("__typename", .str "Tweet"),
        ("legacy", .obj [("id_str", .str "99")]),
        ("core", .obj [("user_results", .obj [("result",
          .obj [("legacy", .obj [])])])])])])])])]

/-- A search response containing only `sampleEntryNoTimestamp`. -/
def sampleResponseNoTimestamp : JValue :=
  .obj [("result", .obj [("timeline", .obj [("instructions",
    .arr [.obj [("type", .str "TimelineAddEntries"),
      ("entries", .arr [sampleEntryNoTimestamp])]])])])]

/-- The tweet dict extracted from `sampleResponseNoTimestamp`: all six keys
present, with defaulted values. -/
def tweetNoTimestamp : TweetD :=
  [("id_str", .str "99"), ("created_at", .str ""), ("full_text", .str ""),
   ("user_id_str", .str ""), ("entities", .obj []),
   ("user", .obj [("screen_name", .str "")])]

/-! # Theorems -/

/-! ## Supporting lemmas: strings -/

theorem string_mk_append (a b : List Char) : String.mk a ++ String.mk b = String.mk (a ++ b) :=
  rfl

theorem string_length_mk (a : List Char) : (String.mk a).length = a.length := rfl

theorem string_data_mk (a : List Char) : (String.mk a).data = a := rfl

/-! ## Supporting lemmas: retry machine -/

theorem post_tweet_go_sleeps_length (script : Nat → AttemptOutcome) (m : Nat) :
    ∀ fuel rc, (post_tweet_go script m fuel rc).sleeps.length ≤ m - rc := by
  intro fuel
  induction fuel with
  | zero => intro rc; simp [post_tweet_go]
  | succ f ih =>
    intro rc
    cases hs : script rc with
    | resp st id =>
      by_cases h1 : st = 200 ∨ st = 201
      · simp [post_tweet_go, hs, h1]
      · by_cases h2 : 500 ≤ st ∧ rc < m
        · have := ih (rc + 1)
          simp only [post_tweet_go, hs, if_neg h1, if_pos h2, withSleep, List.length_cons]
          omega
        · by_cases h3 : st = 429 ∧ rc < m
          · have := ih (rc + 1)
            simp only [post_tweet_go, hs, if_neg h1, if_neg h2, if_pos h3, withSleep,
              List.length_cons]
            omega
          · simp [post_tweet_go, hs, h1, h2, h3]
    | timeout =>
      by_cases h1 : rc < m
      · have := ih (rc + 1)
        simp only [post_tweet_go, hs, if_pos h1, withSleep, List.length_cons]
        omega
      · simp [post_tweet_go, hs, h1]
    | exc => simp [post_tweet_go, hs]

theorem post_tweet_go_success :
    ∀ (n : Nat) (script : Nat → AttemptOutcome) (m fuel rc st : Nat) (id : String),
    n < fuel → rc + n ≤ m → (∀ k, k < n → RetryableOutcome (script (rc + k))) →
    script (rc + n) = AttemptOutcome.resp st id → (st = 200 ∨ st = 201) →
    (post_tweet_go script m fuel rc).result = some id := by
  intro n
  induction n with
  | zero =>
    intro script m fuel rc st id hfuel _ _ hs hst
    obtain ⟨f, rfl⟩ : ∃ f, fuel = f + 1 := ⟨fuel - 1, by omega⟩
    rw [Nat.add_zero] at hs
    simp [post_tweet_go, hs, hst]
  | succ k ih =>
    intro script m fuel rc st id hfuel hle hretry hs hst
    obtain ⟨f, rfl⟩ : ∃ f, fuel = f + 1 := ⟨fuel - 1, by omega⟩
    have hnext : (post_tweet_go script m f (rc + 1)).result = some id := by
      refine ih script m f (rc + 1) st id (by omega) (by omega) ?_ ?_ hst
      · intro j hj
        have := hretry (j + 1) (by omega)
        rwa [show rc + (j + 1) = rc + 1 + j by omega] at this
      · rwa [show rc + (k + 1) = rc + 1 + k by omega] at hs
    have h0 := hretry 0 (by omega)
    rw [Nat.add_zero] at h0
    rcases h0 with htime | ⟨st', id', heq, hcase⟩
    · simp only [post_tweet_go, htime, if_pos (show rc < m by omega), withSleep]
      exact hnext
    · have hns : ¬(st' = 200 ∨ st' = 201) := by omega
      rcases hcase with h5 | h429
      · simp only [post_tweet_go, heq, if_neg hns,
          if_pos (show 500 ≤ st' ∧ rc < m from ⟨h5, by omega⟩), withSleep]
        exact hnext
      · simp only [post_tweet_go, heq, if_neg hns,
          if_neg (show ¬(500 ≤ st' ∧ rc < m) by omega),
          if_pos (show st' = 429 ∧ rc < m from ⟨h429, by omega⟩), withSleep]
        exact hnext

/-- C4, counterexample: not every 2xx response yields the created post id.
A constant-202 script makes `post_tweet` return `None` immediately, although
202 is a 2xx status. -/
theorem post_tweet_2xx_not_success_at_202 :
    post_tweet scriptAll202 3 = ⟨none, []⟩ ∧ 200 ≤ 202 ∧ 202 < 300 ∧
    (post_tweet scriptAll202 3).result ≠ some "id202" := by
  exact ⟨rfl, by omega, by omega, by decide⟩

/-- C4, amended: with `max_retries = 3`, a constant-500 script makes
`post_tweet` return `None` after exactly three backoff sleeps (four
attempts); in general the number of retries is bounded by `max_retries`;
a 200 or 201 response at any attempt reachable through retryable outcomes
yields the created post id; and a non-retryable 4xx other than 429 returns
`None` immediately with no retry. -/
theorem post_tweet_retry_cap_and_outcomes :
    post_tweet scriptAll500 3 = ⟨none, [2, 4, 8]⟩ ∧
    (∀ script m, (post_tweet script m).sleeps.length ≤ m) ∧
    (∀ script m n st id, n ≤ m → (∀ k, k < n → RetryableOutcome (script k)) →
      script n = AttemptOutcome.resp st id → (st = 200 ∨ st = 201) →
      (post_tweet script m).result = some id) ∧
    (∀ script m st id, script 0 = AttemptOutcome.resp st id →
      400 ≤ st → st < 500 → st ≠ 429 → post_tweet script m = ⟨none, []⟩) := by
  refine ⟨rfl, ?_, ?_, ?_⟩
  · intro script m
    have := post_tweet_go_sleeps_length script m (m + 1) 0
    rw [post_tweet]; omega
  · intro script m n st id hn hretry hs hst
    exact post_tweet_go_success n script m (m + 1) 0 st id (by omega) (by omega)
      (fun k hk => by simpa using hretry k hk) (by simpa using hs) hst
  · intro script m st id hs h4 h5 h429
    rw [post_tweet]
    simp only [post_tweet_go, hs, if_neg (show ¬(st = 200 ∨ st = 201) by omega),
      if_neg (show ¬(500 ≤ st ∧ 0 < m) by omega),
      if_neg (show ¬(st = 429 ∧ 0 < m) by omega)]

/-- C4, witness: the amended statement applied at concrete scripts. -/
theorem post_tweet_retry_cap_and_outcomes_witness :
    (post_tweet script429then201 3).result = some "id-from-retry" ∧
    post_tweet (fun _ => AttemptOutcome.resp 404 "nf") 3 = ⟨none, []⟩ := by
  constructor
  · refine post_tweet_retry_cap_and_outcomes.2.2.1 script429then201 3 1 201
      "id-from-retry" (by omega) ?_ rfl (Or.inr rfl)
    intro k hk
    have : k = 0 := by omega
    subst this
    exact Or.inr ⟨429, "", rfl, Or.inr rfl⟩
  · exact post_tweet_retry_cap_and_outcomes.2.2.2 _ 3 404 "nf" rfl (by omega)
      (by omega) (by omega)

/-! ## C5: 429 then 201 -/

/-- C5, counterexample: after a 429 on attempt 0, the backoff sleep is
`2^0 * 10 = 10` seconds, not the 20 seconds the claim states. -/
theorem post_tweet_429_backoff_not_twenty :
    post_tweet script429then201 3 = ⟨some "id-from-retry", [10]⟩ ∧
    post_tweet script429then201 3 ≠ ⟨some "id-from-retry", [20]⟩ := by
  exact ⟨rfl, by decide⟩

/-- C5, amended: a 429 on attempt 0 followed by a 201 on retry 1 makes
`post_tweet` return the post id of the second response after a single
backoff sleep of `2^0 * 10 = 10` seconds. -/
theorem post_tweet_429_then_201 :
    post_tweet script429then201 3 = ⟨some "id-from-retry", [2 ^ 0 * 10]⟩ := rfl

/-! ## C8: reply truncation -/

/-- C8: a generated reply longer than 280 characters is truncated to
exactly 280 characters — its first 277 characters followed by `"..."` —
while a reply of at most 280 characters is dispatched unchanged. -/
theorem handle_mention_truncation :
    ∀ s : String, (280 < s.length →
      (truncateReply s).length = 280 ∧
      (truncateReply s).data.drop 277 = ['.', '.', '.'] ∧
      (truncateReply s).data.take 277 = s.data.take 277) ∧
    (s.length ≤ 280 → truncateReply s = s) := by
  intro s
  have hd : s.data.length = s.length := rfl
  constructor
  · intro h
    have htr : truncateReply s = String.mk (s.data.take 277 ++ ['.', '.', '.']) := by
      rw [truncateReply, max_chars, if_pos h]
      rfl
    have hlen : (s.data.take 277).length = 277 := by
      rw [List.length_take]; omega
    refine ⟨?_, ?_, ?_⟩
    · rw [htr, string_length_mk, List.length_append, hlen]; rfl
    · rw [htr, string_data_mk, List.drop_left' hlen]
    · rw [htr, string_data_mk, List.take_left' hlen]
  · intro h
    rw [truncateReply, max_chars, if_neg (by omega)]

/-- C8, witness: a 300-character reply is truncated to 280 characters
ending in the ellipsis; a short reply passes through unchanged. -/
theorem handle_mention_truncation_witness :
    (truncateReply aaa300).length = 280 ∧
    (truncateReply aaa300).data.drop 277 = ['.', '.', '.'] ∧
    truncateReply "hi" = "hi" :=
  ⟨((handle_mention_truncation aaa300).1 (by decide)).1,
   ((handle_mention_truncation aaa300).1 (by decide)).2.1,
   (handle_mention_truncation "hi").2 (by decide)⟩

/-! ## C6: entity-based mention detection in group chats -/

/-- C6, counterexample: the text returned for a matched mention entity is
not the message with exactly the matched span removed. With the span's text
occurring twice, `str.replace` removes both occurrences: the code yields
`"hi"` where removing only the entity's span `[3, 7)` would yield
`"hi  @bot"`. -/
theorem entity_mention_strip_not_single_span :
    detectEntityMention "bot" "hi @bot @bot" [⟨"mention", 3, 4⟩] = (true, "hi") ∧
    pyStrip (removeSpan "hi @bot @bot" 3 7) = "hi  @bot" ∧
    ("hi" : String) ≠ "hi  @bot" :=
  ⟨rfl, rfl, by decide⟩

/-- C6, amended: in a group chat, at the first entity of type `"mention"`
whose resolved span, stripped of a leading `@` and lower-cased, equals the
bot's username case-insensitively, detection reports the message as
addressed and returns the message text with every occurrence of the matched
span's text removed, then trimmed; in particular
`"hello @bot how are you"` with a mention entity spanning `"@bot"` and bot
username `bot` yields `(true, "hello  how are you")`. -/
theorem entity_mention_detection :
    (∀ (botUsername text : String) (pre rest : List MessageEntity) (e : MessageEntity),
      (∀ e' ∈ pre, entityMatches botUsername text e' = false) →
      entityMatches botUsername text e = true →
      detectEntityMention botUsername text (pre ++ e :: rest) =
        (true, pyStrip (pyRemoveAll (mentionSpan text e) text))) ∧
    detectEntityMention "bot" "hello @bot how are you" [⟨"mention", 6, 4⟩] =
      (true, "hello  how are you") := by
  constructor
  · intro botUsername text pre rest e
    induction pre with
    | nil =>
      intro _ hm
      simp [detectEntityMention, hm]
    | cons e' pre' ih =>
      intro hpre hm
      have h1 : entityMatches botUsername text e' = false :=
        hpre e' (List.mem_cons_self e' pre')
      simp only [List.cons_append, detectEntityMention, h1, Bool.false_eq_true,
        if_false]
      exact ih (fun x hx => hpre x (List.mem_cons_of_mem e' hx)) hm
  · rfl

/-- C6, witness: the amended statement applied at a concrete message. -/
theorem entity_mention_detection_witness :
    detectEntityMention "bot" "x @bot y" [⟨"mention", 2, 4⟩] =
      (true, pyStrip (pyRemoveAll (mentionSpan "x @bot y" ⟨"mention", 2, 4⟩) "x @bot y")) :=
  entity_mention_detection.1 "bot" "x @bot y" [] [] ⟨"mention", 2, 4⟩
    (by intro e' h; cases h) (by decide)

/-! ## C9: access control -/

/-- C9: a user is allowed iff the allowed-user list is empty or contains the
user's id; a message from a disallowed user is handled without any reply in
a group chat, with exactly the refusal notice in a private chat, and in
every chat type without any call to the text generator (the denial happens
before generation). -/
theorem access_control_denial :
    (∀ (allowed : List Int) (userId : Int),
      is_user_allowed allowed userId = true ↔ (allowed = [] ∨ userId ∈ allowed)) ∧
    (∀ (allowed : List Int) (botId : Int) (botUsername chatType : String) (userId : Int)
      (text : String) (entities : List MessageEntity) (replyToUserId : Option Int)
      (ai : String → Option String),
      is_user_allowed allowed userId = false →
      (isGroupChatType chatType = true →
        handle_message allowed botId botUsername chatType userId text entities
          replyToUserId ai = []) ∧
      (chatType = "private" →
        handle_message allowed botId botUsername chatType userId text entities
          replyToUserId ai = [TgAction.replyText authRefusalText]) ∧
      (∀ p, TgAction.generate p ∉
        handle_message allowed botId botUsername chatType userId text entities
          replyToUserId ai)) := by
  constructor
  · intro allowed userId
    cases allowed with
    | nil => simp [is_user_allowed]
    | cons a rest => simp [is_user_allowed]
  · intro allowed botId botUsername chatType userId text entities replyToUserId ai hdenied
    have ha : isGroupChatType chatType = true →
        handle_message allowed botId botUsername chatType userId text entities
          replyToUserId ai = [] := by
      intro hg
      have hnp : ¬(chatType = "private") := by
        intro h
        subst h
        simp [isGroupChatType] at hg
      simp [handle_message, hg, hdenied, hnp]
    have hb : chatType = "private" →
        handle_message allowed botId botUsername chatType userId text entities
          replyToUserId ai = [TgAction.replyText authRefusalText] := by
      intro hp
      subst hp
      simp [handle_message, isGroupChatType, hdenied]
    refine ⟨ha, hb, ?_⟩
    intro p
    by_cases hg : isGroupChatType chatType = true
    · rw [ha hg]
      simp
    · by_cases hp : chatType = "private"
      · rw [hb hp]
        simp
      · have hg' : isGroupChatType chatType = false := by
          revert hg
          cases isGroupChatType chatType <;> simp
        simp [handle_message, hg', hp, hdenied]

/-- C9, witness: denial at concrete inputs — silent in a group chat,
an explicit notice in a private chat, no generation in either. -/
theorem access_control_denial_witness :
    handle_message [5] 1 "bot" "group" 7 "hello @bot" [⟨"mention", 6, 4⟩] none
      (fun s => some s) = [] ∧
    handle_message [5] 1 "bot" "private" 7 "hello" [] none (fun s => some s) =
      [TgAction.replyText authRefusalText] ∧
    TgAction.generate "hello" ∉
      handle_message [5] 1 "bot" "private" 7 "hello" [] none (fun s => some s) := by
  have h1 := access_control_denial.2 [5] 1 "bot" "group" 7 "hello @bot"
    [⟨"mention", 6, 4⟩] none (fun s => some s) (by decide)
  have h2 := access_control_denial.2 [5] 1 "bot" "private" 7 "hello" [] none
    (fun s => some s) (by decide)
  exact ⟨h1.1 (by decide), h2.2.1 rfl, h2.2.2 "hello"⟩

/-! ## Supporting lemmas: mention filter -/

theorem except_bind_ok {ε α β : Type} (a : α) (f : α → Except ε β) :
    (Except.ok a : Except ε α) >>= f = f a := rfl

theorem except_pure {ε α : Type} (a : α) : (pure a : Except ε α) = Except.ok a := rfl

theorem any_map_eq {α β : Type} (f : α → β) (p : β → Bool) :
    ∀ l : List α, (l.map f).any p = l.any fun m => p (f m) := by
  intro l
  induction l with
  | nil => rfl
  | cons a l ih => simp [List.any_cons, ih]

theorem mentionLoop_eq (account : String) :
    ∀ ms : List JValue, (∀ m ∈ ms, wfMention m = true) →
      mentionLoop account ms =
        .ok (ms.any fun m => "@" ++ pyLower (mentionScreenName m) = pyLower account) := by
  intro ms
  induction ms with
  | nil => intro _; rfl
  | cons m rest ih =>
    intro h
    have hm := h m (List.mem_cons_self m rest)
    have hrest := ih fun x hx => h x (List.mem_cons_of_mem m hx)
    cases m with
    | obj mfs =>
      cases hsn : jLookup mfs "screen_name" with
      | none =>
        by_cases hcond : "@" ++ pyLower "" = pyLower account
        · simp [mentionLoop, pyGet, hsn, pyLowerJ, except_bind_ok, except_pure, hcond,
            mentionScreenName]
        · simp [mentionLoop, pyGet, hsn, pyLowerJ, except_bind_ok, except_pure, hcond,
            mentionScreenName, hrest]
      | some v =>
        cases v with
        | str sn =>
          by_cases hcond : "@" ++ pyLower sn = pyLower account
          · simp [mentionLoop, pyGet, hsn, pyLowerJ, except_bind_ok, except_pure, hcond,
              mentionScreenName]
          · simp [mentionLoop, pyGet, hsn, pyLowerJ, except_bind_ok, except_pure, hcond,
              mentionScreenName, hrest]
        | null => simp [wfMention, hsn] at hm
        | bool b => simp [wfMention, hsn] at hm
        | num n => simp [wfMention, hsn] at hm
        | arr xs => simp [wfMention, hsn] at hm
        | obj fs => simp [wfMention, hsn] at hm
    | null => simp [wfMention] at hm
    | bool b => simp [wfMention] at hm
    | num n => simp [wfMention] at hm
    | str s => simp [wfMention] at hm
    | arr xs => simp [wfMention] at hm

theorem processOne_eq (account : String) (now window : Int) (t : TweetD)
    (hwf : WFTweet t = true) :
    processOne account now window t = .ok (mention_qualifies account now window t) := by
  rw [WFTweet, Bool.and_eq_true] at hwf
  obtain ⟨hca, hent⟩ := hwf
  by_cases hkeys : ((jLookup t "id_str").isSome && (jLookup t "created_at").isSome) = true
  · have hcs : (jLookup t "created_at").isSome = true :=
      (Bool.and_eq_true _ _ |>.mp hkeys).2
    have hid : (jLookup t "id_str").isSome = true :=
      (Bool.and_eq_true _ _ |>.mp hkeys).1
    obtain ⟨ca, hcaeq⟩ := Option.isSome_iff_exists.mp hcs
    rw [hcaeq] at hca
    cases ca with
    | str s =>
      cases hp : parseTwitterTime s with
      | none =>
        simp [processOne, mention_qualifies, hkeys, hid, hcs, hcaeq, hp, except_bind_ok, except_pure]
      | some ts =>
        by_cases hrec : ts < now - window
        · have hnle : ¬(now - window ≤ ts) := by omega
          simp [processOne, mention_qualifies, hkeys, hid, hcs, hcaeq, hp, hrec, hnle,
            except_bind_ok, except_pure]
        · have hnle : now - window ≤ ts := by omega
          cases hentl : jLookup t "entities" with
          | none =>
            simp [processOne, mention_qualifies, mentionedScreenNames, hkeys, hid, hcs, hcaeq,
              hp, hrec, hnle, hentl, pyGet, pyIter, jLookup, mentionLoop,
              except_bind_ok, except_pure]
          | some ev =>
            rw [hentl] at hent
            cases ev with
            | obj efs =>
              have hent2 : (match jLookup efs "user_mentions" with
                  | some (JValue.arr ms) => ms.all wfMention
                  | some _ => false
                  | none => true) = true := hent
              cases huml : jLookup efs "user_mentions" with
              | none =>
                simp [processOne, mention_qualifies, mentionedScreenNames, hkeys, hid, hcs,
                  hcaeq, hp, hrec, hnle, hentl, huml, pyGet, pyIter, jLookup,
                  mentionLoop, except_bind_ok, except_pure]
              | some uv =>
                rw [huml] at hent2
                cases uv with
                | arr ms =>
                  have hms : ∀ m ∈ ms, wfMention m = true := by
                    have h3 : ms.all wfMention = true := hent2
                    rw [List.all_eq_true] at h3
                    exact h3
                  simp [processOne, mention_qualifies, mentionedScreenNames, hkeys, hid, hcs,
                    hcaeq, hp, hrec, hnle, hentl, huml, pyGet, pyIter,
                    except_bind_ok, except_pure, mentionLoop_eq account ms hms,
                    any_map_eq mentionScreenName]
                | null => simp at hent2
                | bool b => simp at hent2
                | num n => simp at hent2
                | str s2 => simp at hent2
                | obj fs => simp at hent2
            | null => simp at hent
            | bool b => simp at hent
            | num n => simp at hent
            | str s2 => simp at hent
            | arr xs => simp at hent
    | null => simp at hca
    | bool b => simp at hca
    | num n => simp at hca
    | arr xs => simp at hca
    | obj fs => simp at hca
  · have hk : ((jLookup t "id_str").isSome && (jLookup t "created_at").isSome) = false := by
      revert hkeys
      cases (jLookup t "id_str").isSome && (jLookup t "created_at").isSome <;> simp
    simp [processOne, mention_qualifies, hk, except_pure]

/-! ## C1: the mention filter -/

/-- C1: on well-formed tweet dicts, `process_tweets` returns exactly the
input mentions that (a) carry both required fields, (b) have a timestamp
parsing under the fixed platform format to a UTC epoch at least
`now - window_seconds`, and (c) mention a user whose `@`-prefixed screen
name equals the monitored handle case-insensitively; a mention with
timestamp exactly `now - window_seconds` is included while one second older
is excluded, and a mention of only `@Other` while monitoring `@Target` is
excluded regardless of recency. -/
theorem process_tweets_filter_characterization :
    (∀ (tweets : List TweetD) (account : String) (now window : Int),
      (∀ t ∈ tweets, WFTweet t = true) →
      process_tweets tweets account now window =
        .ok (tweets.filter (mention_qualifies account now window))) ∧
    process_tweets [sampleTweet tsFeb19 "Target"] "@Target" (epochFeb19 + 30) 30 =
      .ok [sampleTweet tsFeb19 "Target"] ∧
    process_tweets [sampleTweet tsFeb19 "Target"] "@Target" (epochFeb19 + 31) 30 =
      .ok [] ∧
    process_tweets [sampleTweet tsFeb19 "Other"] "@Target" epochFeb19 30 = .ok [] := by
  refine ⟨?_, rfl, rfl, rfl⟩
  intro tweets account now window hwf
  induction tweets with
  | nil => rfl
  | cons t ts ih =>
    have h1 := processOne_eq account now window t (hwf t (List.mem_cons_self t ts))
    have h2 := ih fun x hx => hwf x (List.mem_cons_of_mem t hx)
    by_cases hq : mention_qualifies account now window t = true
    · simp [process_tweets, h1, h2, except_bind_ok, except_pure, List.filter_cons, hq]
    · have hq' : mention_qualifies account now window t = false := by
        revert hq
        cases mention_qualifies account now window t <;> simp
      simp [process_tweets, h1, h2, except_bind_ok, except_pure, List.filter_cons, hq']

/-- C1, witness: the filter equation applied at a concrete well-formed
tweet list. -/
theorem process_tweets_filter_characterization_witness :
    process_tweets [sampleTweet tsFeb19 "Target"] "@x" epochFeb19 30 =
      .ok (List.filter (mention_qualifies "@x" epochFeb19 30)
        [sampleTweet tsFeb19 "Target"]) :=
  process_tweets_filter_characterization.1 [sampleTweet tsFeb19 "Target"] "@x"
    epochFeb19 30 (by decide)

/-! ## Supporting lemmas: extractor -/

theorem except_bind_error {ε α β : Type} (e : ε) (f : α → Except ε β) :
    (Except.error e : Except ε α) >>= f = .error e := rfl

theorem bind_ok_iff {ε α β : Type} (m : Except ε α) (f : α → Except ε β) (b : β) :
    (m >>= f) = .ok b ↔ ∃ a, m = .ok a ∧ f a = .ok b := by
  cases m with
  | ok a => simp [except_bind_ok]
  | error e => simp [except_bind_error]

theorem pyGet_ok {v : JValue} {k : String} {d x : JValue} (h : pyGet v k d = .ok x) :
    specGetD v k d = x := by
  cases v <;> simp_all [pyGet, specGetD]

theorem pySubscript_ok {v : JValue} {k : String} {x : JValue}
    (h : pySubscript v k = .ok x) : ∃ fs, v = .obj fs ∧ jLookup fs k = some x := by
  cases v with
  | obj fs =>
    refine ⟨fs, rfl, ?_⟩
    cases hl : jLookup fs k with
    | some y => simp [pySubscript, hl] at h; rw [h]
    | none => simp [pySubscript, hl] at h
  | null => simp [pySubscript] at h
  | bool b => simp [pySubscript] at h
  | num n => simp [pySubscript] at h
  | str s => simp [pySubscript] at h
  | arr xs => simp [pySubscript] at h

theorem processEntry_ok (entry : JValue) (t? : Option TweetD)
    (h : processEntry entry = .ok t?) : specEntry entry = t? := by
  unfold processEntry at h
  rw [bind_ok_iff] at h
  obtain ⟨content, hcontent, h⟩ := h
  rw [bind_ok_iff] at h
  obtain ⟨tn1, htn1, h⟩ := h
  by_cases hg1 : jEqStr tn1 "TimelineTimelineItem" = true
  · rw [if_pos hg1] at h
    rw [bind_ok_iff] at h
    obtain ⟨itemContent, hitem, h⟩ := h
    rw [bind_ok_iff] at h
    obtain ⟨tn2, htn2, h⟩ := h
    by_cases hg2 : jEqStr tn2 "TimelineTweet" = true
    · rw [if_pos hg2] at h
      rw [bind_ok_iff] at h
      obtain ⟨tweetResults, htr, h⟩ := h
      rw [bind_ok_iff] at h
      obtain ⟨result, hres, h⟩ := h
      rw [bind_ok_iff] at h
      obtain ⟨tn3, htn3, h⟩ := h
      by_cases hg3 : jEqStr tn3 "Tweet" = true
      · rw [if_pos hg3] at h
        rw [bind_ok_iff] at h
        obtain ⟨legacyData, hld, h⟩ := h
        rw [bind_ok_iff] at h
        obtain ⟨core, hcore, h⟩ := h
        rw [bind_ok_iff] at h
        obtain ⟨userResults, hur, h⟩ := h
        rw [bind_ok_iff] at h
        obtain ⟨userResult, hures, h⟩ := h
        rw [bind_ok_iff] at h
        obtain ⟨userData, hud, h⟩ := h
        rw [bind_ok_iff] at h
        obtain ⟨idv, hidv, h⟩ := h
        rw [bind_ok_iff] at h
        obtain ⟨cav, hcav, h⟩ := h
        rw [bind_ok_iff] at h
        obtain ⟨ftv, hftv, h⟩ := h
        rw [bind_ok_iff] at h
        obtain ⟨uidv, huidv, h⟩ := h
        rw [bind_ok_iff] at h
        obtain ⟨entv, hentv, h⟩ := h
        rw [bind_ok_iff] at h
        obtain ⟨snv, hsnv, h⟩ := h
        rw [except_pure] at h
        injection h with h
        subst h
        simp [specEntry, pyGet_ok hcontent, pyGet_ok htn1, hg1, pyGet_ok hitem,
          pyGet_ok htn2, hg2, pyGet_ok htr, pyGet_ok hres, pyGet_ok htn3, hg3,
          pyGet_ok hld, pyGet_ok hcore, pyGet_ok hur, pyGet_ok hures, pyGet_ok hud,
          pyGet_ok hidv, pyGet_ok hcav, pyGet_ok hftv, pyGet_ok huidv,
          pyGet_ok hentv, pyGet_ok hsnv]
      · rw [if_neg hg3, except_pure] at h
        injection h with h
        subst h
        simp [specEntry, pyGet_ok hcontent, pyGet_ok htn1, hg1, pyGet_ok hitem,
          pyGet_ok htn2, hg2, pyGet_ok htr, pyGet_ok hres, pyGet_ok htn3, hg3]
    · rw [if_neg hg2, except_pure] at h
      injection h with h
      subst h
      simp [specEntry, pyGet_ok hcontent, pyGet_ok htn1, hg1, pyGet_ok hitem,
        pyGet_ok htn2, hg2]
  · rw [if_neg hg1, except_pure] at h
    injection h with h
    subst h
    simp [specEntry, pyGet_ok hcontent, pyGet_ok htn1, hg1]

theorem entriesLoop_ok : ∀ (es : List JValue) (l : List TweetD),
    entriesLoop es = .ok l → es.filterMap specEntry = l := by
  intro es
  induction es with
  | nil =>
    intro l h
    simp only [entriesLoop] at h
    injection h with h
  | cons e rest ih =>
    intro l h
    simp only [entriesLoop] at h
    rw [bind_ok_iff] at h
    obtain ⟨t?, hpe, h⟩ := h
    rw [bind_ok_iff] at h
    obtain ⟨r, hrec, h⟩ := h
    rw [except_pure] at h
    injection h with h
    subst h
    rw [List.filterMap_cons, processEntry_ok e t? hpe]
    cases t? <;> simp [ih r hrec]

theorem entriesLoop_str (s : String) (rest : List JValue) :
    entriesLoop (JValue.str s :: rest) = .error .attributeError := rfl

theorem instrsLoop_str (s : String) (rest : List JValue) :
    instrsLoop (JValue.str s :: rest) = .error .attributeError := rfl

theorem processInstruction_ok (i : JValue) (l : List TweetD)
    (h : processInstruction i = .ok l) :
    (if jEqStr (specGetD i "type" .null) "TimelineAddEntries" = true then
      (specItems (specGetD i "entries" (.arr []))).filterMap specEntry
    else []) = l := by
  unfold processInstruction at h
  rw [bind_ok_iff] at h
  obtain ⟨ty, hty, h⟩ := h
  by_cases hg : jEqStr ty "TimelineAddEntries" = true
  · rw [if_pos hg] at h
    rw [bind_ok_iff] at h
    obtain ⟨entriesV, hev, h⟩ := h
    rw [bind_ok_iff] at h
    obtain ⟨es, hes, h⟩ := h
    rw [pyGet_ok hty, if_pos hg, pyGet_ok hev]
    cases entriesV with
    | arr xs =>
      have hx : es = xs := by simp [pyIter] at hes; rw [hes]
      subst hx
      exact entriesLoop_ok es l h
    | obj fs =>
      have hx : es = fs.map fun p => JValue.str p.1 := by
        simp [pyIter] at hes; rw [hes]
      cases fs with
      | nil =>
        subst hx
        simp only [entriesLoop, List.map_nil] at h
        injection h with h
      | cons p ps =>
        rw [List.map_cons] at hx
        subst hx
        rw [entriesLoop_str] at h
        simp at h
    | str s =>
      have hx : es = s.data.map fun c => JValue.str (String.mk [c]) := by
        simp [pyIter] at hes; rw [hes]
      cases hsd : s.data with
      | nil =>
        rw [hsd] at hx
        subst hx
        simp only [entriesLoop, List.map_nil] at h
        injection h with h
      | cons c cs =>
        rw [hsd, List.map_cons] at hx
        subst hx
        rw [entriesLoop_str] at h
        simp at h
    | null => simp [pyIter] at hes
    | bool b => simp [pyIter] at hes
    | num n => simp [pyIter] at hes
  · rw [if_neg hg, except_pure] at h
    injection h with h
    subst h
    rw [pyGet_ok hty, if_neg hg]

theorem instrsLoop_ok : ∀ (instrs : List JValue) (l : List TweetD),
    instrsLoop instrs = .ok l →
    (instrs.flatMap fun i =>
      if jEqStr (specGetD i "type" .null) "TimelineAddEntries" = true then
        (specItems (specGetD i "entries" (.arr []))).filterMap specEntry
      else []) = l := by
  intro instrs
  induction instrs with
  | nil =>
    intro l h
    simp only [instrsLoop] at h
    injection h with h
  | cons i rest ih =>
    intro l h
    simp only [instrsLoop] at h
    rw [bind_ok_iff] at h
    obtain ⟨a, hpi, h⟩ := h
    rw [bind_ok_iff] at h
    obtain ⟨b, hrec, h⟩ := h
    rw [except_pure] at h
    injection h with h
    subst h
    rw [List.flatMap_cons, processInstruction_ok i a hpi, ih b hrec]

theorem specItems_of_pyIter {v : JValue} {xs : List JValue} (h : pyIter v = .ok xs)
    (hloop : ∀ s rest, xs = JValue.str s :: rest → False) : specItems v = xs := by
  cases v with
  | arr ys => simp [pyIter] at h; rw [specItems, h]
  | obj fs =>
    have hx : xs = fs.map fun p => JValue.str p.1 := by simp [pyIter] at h; rw [h]
    cases fs with
    | nil => rw [hx]; rfl
    | cons p ps =>
      rw [List.map_cons] at hx
      exact absurd hx fun hc => hloop _ _ hc
  | str s =>
    have hx : xs = s.data.map fun c => JValue.str (String.mk [c]) := by
      simp [pyIter] at h; rw [h]
    cases hsd : s.data with
    | nil => rw [hsd] at hx; rw [hx]; rfl
    | cons c cs =>
      rw [hsd, List.map_cons] at hx
      exact absurd hx fun hc => hloop _ _ hc
  | null => simp [pyIter] at h
  | bool b => simp [pyIter] at h
  | num n => simp [pyIter] at h

theorem extract_body_ok (rd : JValue) (l : List TweetD)
    (h : extract_tweets_body rd = .ok l) : specExtract rd = l := by
  unfold extract_tweets_body at h
  rw [bind_ok_iff] at h
  obtain ⟨cond, hcond, h⟩ := h
  by_cases hcv : cond = true
  · rw [if_pos hcv] at h
    rw [bind_ok_iff] at h
    obtain ⟨r, hr, h⟩ := h
    rw [bind_ok_iff] at h
    obtain ⟨tl, htl, h⟩ := h
    rw [bind_ok_iff] at h
    obtain ⟨instrsV, hv, h⟩ := h
    rw [bind_ok_iff] at h
    obtain ⟨instrs, hit, h⟩ := h
    obtain ⟨fs, rfl, hlook⟩ := pySubscript_ok hr
    obtain ⟨gfs, hre, hlook2⟩ := pySubscript_ok htl
    have hitems : specItems instrsV = instrs := by
      refine specItems_of_pyIter hit ?_
      intro s rest hc
      rw [hc, instrsLoop_str] at h
      simp at h
    rw [specExtract]
    rw [show specGetD (JValue.obj fs) "result" .null = r by simp [specGetD, hlook]]
    rw [hre, show specGetD (JValue.obj gfs) "timeline" .null = tl by
      simp [specGetD, hlook2]]
    rw [pyGet_ok hv, hitems]
    exact instrsLoop_ok instrs l h
  · have hcf : cond = false := by revert hcv; cases cond <;> simp
    subst hcf
    rw [if_neg (by simp), except_pure] at h
    injection h with h
    subst h
    unfold checkTimeline at hcond
    rw [bind_ok_iff] at hcond
    obtain ⟨c1, hc1, hcond⟩ := hcond
    by_cases hc1v : c1 = true
    · rw [if_pos hc1v] at hcond
      rw [bind_ok_iff] at hcond
      obtain ⟨r, hr, hcond⟩ := hcond
      obtain ⟨fs, rfl, hlook⟩ := pySubscript_ok hr
      have htlnull : specGetD r "timeline" .null = .null := by
        cases r with
        | obj gfs =>
          simp [pyContains] at hcond
          simp [specGetD, hcond]
        | arr ys => rfl
        | str s => rfl
        | null => simp [pyContains] at hcond
        | bool b => simp [pyContains] at hcond
        | num n => simp [pyContains] at hcond
      rw [specExtract]
      rw [show specGetD (JValue.obj fs) "result" .null = r by simp [specGetD, hlook]]
      rw [htlnull]
      rfl
    · have hc1f : c1 = false := by revert hc1v; cases c1 <;> simp
      subst hc1f
      cases rd with
      | obj fs =>
        simp [pyContains] at hc1
        rw [specExtract, show specGetD (JValue.obj fs) "result" .null = .null by
          simp [specGetD, hc1]]
        rfl
      | arr ys => rfl
      | str s => rfl
      | null => simp [pyContains] at hc1
      | bool b => simp [pyContains] at hc1
      | num n => simp [pyContains] at hc1

/-! ## C7: the extractor never raises and honors every guard -/

/-- C7: `_extract_tweets_from_response` is fail-open — whenever its
traversal hits a shape it cannot read (an internal Python error), the
function returns the empty list; and whenever the traversal completes, the
result is exactly the specification-side guard-filtered extraction: entries
failing a `__typename`/`type` guard are skipped, entries passing every
guard are extracted. -/
theorem extractor_fail_open_and_guards :
    (∀ (responseData : JValue) (e : PyErr),
      extract_tweets_body responseData = .error e →
      extract_tweets_from_response responseData = []) ∧
    (∀ (responseData : JValue) (l : List TweetD),
      extract_tweets_body responseData = .ok l →
      extract_tweets_from_response responseData = specExtract responseData ∧
      specExtract responseData = l) := by
  constructor
  · intro responseData e h
    rw [extract_tweets_from_response, h]
  · intro responseData l h
    have hs := extract_body_ok responseData l h
    rw [extract_tweets_from_response, h, hs]
    exact ⟨rfl, rfl⟩

/-- C7, witness: a non-dict payload errors internally and yields `[]`; a
structured payload with one passing and one guard-failing entry yields
exactly the passing entry's record. -/
theorem extractor_fail_open_and_guards_witness :
    extract_tweets_from_response (.num 0) = [] ∧
    extract_tweets_from_response sampleSearchResponse = specExtract sampleSearchResponse ∧
    specExtract sampleSearchResponse = [sampleTweetGood] := by
  refine ⟨extractor_fail_open_and_guards.1 (.num 0) .typeError rfl, ?_, ?_⟩
  · exact (extractor_fail_open_and_guards.2 sampleSearchResponse [sampleTweetGood] rfl).1
  · exact (extractor_fail_open_and_guards.2 sampleSearchResponse [sampleTweetGood] rfl).2

/-! ## Supporting lemmas: extractor record shape -/

theorem specEntry_keys (e : JValue) (t : TweetD) (h : specEntry e = some t) :
    t.map Prod.fst =
      ["id_str", "created_at", "full_text", "user_id_str", "entities", "user"] := by
  simp only [specEntry] at h
  split_ifs at h
  injection h with h
  subst h
  rfl

theorem jLookup_isSome_of_mem_keys : ∀ (t : TweetD) (k : String),
    k ∈ t.map Prod.fst → (jLookup t k).isSome = true := by
  intro t k
  induction t with
  | nil => intro h; simp at h
  | cons p rest ih =>
    intro h
    obtain ⟨k1, v1⟩ := p
    rcases List.mem_cons.mp h with he | hm
    · simp only [jLookup]
      rw [if_pos he.symm]
      rfl
    · simp only [jLookup]
      by_cases hk : k1 = k
      · rw [if_pos hk]; rfl
      · rw [if_neg hk]
        exact ih hm

theorem mem_entriesLoop_keys (es : List JValue) (l : List TweetD)
    (h : entriesLoop es = .ok l) :
    ∀ t ∈ l, t.map Prod.fst =
      ["id_str", "created_at", "full_text", "user_id_str", "entities", "user"] := by
  intro t ht
  rw [← entriesLoop_ok es l h] at ht
  obtain ⟨e, _, hse⟩ := List.mem_filterMap.mp ht
  exact specEntry_keys e t hse

theorem mem_instrsLoop_keys (instrs : List JValue) (l : List TweetD)
    (h : instrsLoop instrs = .ok l) :
    ∀ t ∈ l, t.map Prod.fst =
      ["id_str", "created_at", "full_text", "user_id_str", "entities", "user"] := by
  intro t ht
  rw [← instrsLoop_ok instrs l h] at ht
  obtain ⟨i, _, hti⟩ := List.mem_flatMap.mp ht
  by_cases hg : jEqStr (specGetD i "type" .null) "TimelineAddEntries" = true
  · rw [if_pos hg] at hti
    obtain ⟨e, _, hse⟩ := List.mem_filterMap.mp hti
    exact specEntry_keys e t hse
  · rw [if_neg hg] at hti
    simp at hti

/-! ## C10: every extracted tweet carries all six keys -/

/-- C10: every tweet record the extractor produces has exactly the six keys
`id_str`, `created_at`, `full_text`, `user_id_str`, `entities`, `user` (with
defaulted values when the source lacked them), so the filter's
required-field presence check accepts every extractor-produced tweet; a
source entry lacking a timestamp yields `created_at = ""`, passes the
presence check, and is dropped only when timestamp parsing fails. -/
theorem extractor_tweets_have_required_keys :
    (∀ (responseData : JValue) (t : TweetD),
      t ∈ extract_tweets_from_response responseData →
      t.map Prod.fst =
        ["id_str", "created_at", "full_text", "user_id_str", "entities", "user"] ∧
      ((jLookup t "id_str").isSome && (jLookup t "created_at").isSome) = true) ∧
    extract_tweets_from_response sampleResponseNoTimestamp = [tweetNoTimestamp] ∧
    jLookup tweetNoTimestamp "created_at" = some (.str "") ∧
    parseTwitterTime "" = none ∧
    process_tweets [tweetNoTimestamp] "@target" 1000 30 = .ok [] := by
  refine ⟨?_, rfl, rfl, rfl, rfl⟩
  intro responseData t ht
  have hkeys : t.map Prod.fst =
      ["id_str", "created_at", "full_text", "user_id_str", "entities", "user"] := by
    rw [extract_tweets_from_response] at ht
    cases hb : extract_tweets_body responseData with
    | error e => rw [hb] at ht; simp at ht
    | ok l =>
      rw [hb] at ht
      revert ht
      unfold extract_tweets_body at hb
      rw [bind_ok_iff] at hb
      obtain ⟨cond, hcond, hb⟩ := hb
      by_cases hcv : cond = true
      · rw [if_pos hcv] at hb
        rw [bind_ok_iff] at hb
        obtain ⟨r, hr, hb⟩ := hb
        rw [bind_ok_iff] at hb
        obtain ⟨tl, htl, hb⟩ := hb
        rw [bind_ok_iff] at hb
        obtain ⟨instrsV, hv, hb⟩ := hb
        rw [bind_ok_iff] at hb
        obtain ⟨instrs, hit, hb⟩ := hb
        exact mem_instrsLoop_keys instrs l hb t
      · have hcf : cond = false := by revert hcv; cases cond <;> simp
        subst hcf
        rw [if_neg (by simp), except_pure] at hb
        injection hb with hb
        subst hb
        intro ht
        simp at ht
  refine ⟨hkeys, ?_⟩
  rw [Bool.and_eq_true]
  constructor
  · exact jLookup_isSome_of_mem_keys t "id_str" (by rw [hkeys]; simp)
  · exact jLookup_isSome_of_mem_keys t "created_at" (by rw [hkeys]; simp)

/-- C10, witness: the key invariant applied at a concrete extracted tweet. -/
theorem extractor_tweets_have_required_keys_witness :
    sampleTweetGood.map Prod.fst =
      ["id_str", "created_at", "full_text", "user_id_str", "entities", "user"] ∧
    ((jLookup sampleTweetGood "id_str").isSome &&
      (jLookup sampleTweetGood "created_at").isSome) = true :=
  extractor_tweets_have_required_keys.1 sampleSearchResponse sampleTweetGood
    (by rw [show extract_tweets_from_response sampleSearchResponse = [sampleTweetGood]
          from rfl]
        exact List.mem_singleton.mpr rfl)

/-! ## Supporting lemmas: string order -/

theorem char_eq_of_toNat {x y : Char} (h : x.toNat = y.toNat) : x = y := by
  have hx := Char.ofNat_toNat x
  have hy := Char.ofNat_toNat y
  rw [← hx, ← hy, h]

theorem charListLe_refl : ∀ a : List Char, charListLe a a = true := by
  intro a
  induction a with
  | nil => rfl
  | cons x xs ih => simp [charListLe, ih]

theorem charListLe_total : ∀ a b : List Char, charListLe a b = true ∨ charListLe b a = true := by
  intro a
  induction a with
  | nil => intro b; left; rfl
  | cons x xs ih =>
    intro b
    cases b with
    | nil => right; rfl
    | cons y ys =>
      rcases Nat.lt_trichotomy x.toNat y.toNat with h | h | h
      · left; simp [charListLe, h]
      · rcases ih ys with ht | ht
        · left
          simp [charListLe, show ¬(x.toNat < y.toNat) by omega,
            show ¬(y.toNat < x.toNat) by omega, ht]
        · right
          simp [charListLe, show ¬(x.toNat < y.toNat) by omega,
            show ¬(y.toNat < x.toNat) by omega, ht]
      · right; simp [charListLe, h]

theorem charListLe_trans : ∀ a b c : List Char,
    charListLe a b = true → charListLe b c = true → charListLe a c = true := by
  intro a
  induction a with
  | nil => intro b c _ _; rfl
  | cons x xs ih =>
    intro b c hab hbc
    cases b with
    | nil => simp [charListLe] at hab
    | cons y ys =>
      cases c with
      | nil => simp [charListLe] at hbc
      | cons z zs =>
        rcases Nat.lt_trichotomy x.toNat y.toNat with hxy | hxy | hxy <;>
          rcases Nat.lt_trichotomy y.toNat z.toNat with hyz | hyz | hyz
        · simp [charListLe, show x.toNat < z.toNat by omega]
        · simp [charListLe, show x.toNat < z.toNat by omega]
        · simp [charListLe, show ¬(y.toNat < z.toNat) by omega, hyz] at hbc
        · simp [charListLe, show x.toNat < z.toNat by omega]
        · have h1 : charListLe xs ys = true := by
            simpa [charListLe, show ¬(x.toNat < y.toNat) by omega,
              show ¬(y.toNat < x.toNat) by omega] using hab
          have h2 : charListLe ys zs = true := by
            simpa [charListLe, show ¬(y.toNat < z.toNat) by omega,
              show ¬(z.toNat < y.toNat) by omega] using hbc
          simp [charListLe, show ¬(x.toNat < z.toNat) by omega,
            show ¬(z.toNat < x.toNat) by omega, ih ys zs h1 h2]
        · simp [charListLe, show ¬(y.toNat < z.toNat) by omega, hyz] at hbc
        · simp [charListLe, show ¬(x.toNat < y.toNat) by omega, hxy] at hab
        · simp [charListLe, show ¬(x.toNat < y.toNat) by omega, hxy] at hab
        · simp [charListLe, show ¬(x.toNat < y.toNat) by omega, hxy] at hab

theorem charListLe_antisymm : ∀ a b : List Char,
    charListLe a b = true → charListLe b a = true → a = b := by
  intro a
  induction a with
  | nil =>
    intro b _ h2
    cases b with
    | nil => rfl
    | cons y ys => simp [charListLe] at h2
  | cons x xs ih =>
    intro b h1 h2
    cases b with
    | nil => simp [charListLe] at h1
    | cons y ys =>
      rcases Nat.lt_trichotomy x.toNat y.toNat with h | h | h
      · simp [charListLe, show ¬(y.toNat < x.toNat) by omega, h] at h2
      · have hxy : x = y := char_eq_of_toNat h
        subst hxy
        have t1 : charListLe xs ys = true := by
          simpa [charListLe, show ¬(x.toNat < x.toNat) by omega] using h1
        have t2 : charListLe ys xs = true := by
          simpa [charListLe, show ¬(x.toNat < x.toNat) by omega] using h2
        rw [ih ys t1 t2]
      · simp [charListLe, show ¬(x.toNat < y.toNat) by omega, h] at h1

theorem strLe_total (s t : String) : strLe s t = true ∨ strLe t s = true :=
  charListLe_total s.data t.data

theorem strLe_trans {s t u : String} (h1 : strLe s t = true) (h2 : strLe t u = true) :
    strLe s u = true :=
  charListLe_trans s.data t.data u.data h1 h2

theorem strLe_antisymm {s t : String} (h1 : strLe s t = true) (h2 : strLe t s = true) :
    s = t := by
  have h := charListLe_antisymm s.data t.data h1 h2
  cases s with
  | mk d1 =>
    cases t with
    | mk d2 => exact congrArg String.mk h

instance : IsTotal (String × String) EncKeyLe :=
  ⟨fun p q => strLe_total (url_encode p.1) (url_encode q.1)⟩

instance : IsTrans (String × String) EncKeyLe :=
  ⟨fun _ _ _ hpq hqr => strLe_trans hpq hqr⟩

/-! ## Supporting lemmas: stable sorting of parameter dictionaries -/

theorem pairwise_perm_eq {α : Type} {r : α → α → Prop} :
    ∀ {l₁ l₂ : List α}, l₁.Perm l₂ → l₁.Pairwise r → l₂.Pairwise r →
    (∀ x ∈ l₁, ∀ y ∈ l₁, r x y → r y x → x = y) → l₁ = l₂ := by
  intro l₁
  induction l₁ with
  | nil =>
    intro l₂ hp _ _ _
    exact hp.nil_eq
  | cons a t ih =>
    intro l₂ hp hs₁ hs₂ hinj
    cases l₂ with
    | nil =>
      have := hp.length_eq
      simp at this
    | cons b t₂ =>
      have hab : a = b := by
        have hma : a ∈ b :: t₂ := hp.subset (List.mem_cons_self a t)
        rcases List.mem_cons.mp hma with h | h
        · exact h
        · have hmb : b ∈ a :: t := hp.symm.subset (List.mem_cons_self b t₂)
          rcases List.mem_cons.mp hmb with h' | h'
          · exact h'.symm
          · have hrab : r a b := (List.pairwise_cons.mp hs₁).1 b h'
            have hrba : r b a := (List.pairwise_cons.mp hs₂).1 a h
            exact hinj a (List.mem_cons_self a t) b (List.mem_cons_of_mem a h') hrab hrba
      subst hab
      have hp' : t.Perm t₂ := hp.cons_inv
      have ht := ih hp' (List.pairwise_cons.mp hs₁).2 (List.pairwise_cons.mp hs₂).2
        (fun x hx y hy => hinj x (List.mem_cons_of_mem a hx) y (List.mem_cons_of_mem a hy))
      rw [ht]

theorem insertionSort_enc_eq (l₁ l₂ : List (String × String)) (hp : l₁.Perm l₂)
    (hn : (l₁.map fun p => url_encode p.1).Nodup) :
    List.insertionSort EncKeyLe l₁ = List.insertionSort EncKeyLe l₂ := by
  have hperm1 := List.perm_insertionSort EncKeyLe l₁
  have hperm2 := List.perm_insertionSort EncKeyLe l₂
  apply pairwise_perm_eq (r := EncKeyLe)
  · exact hperm1.trans (hp.trans hperm2.symm)
  · exact List.sorted_insertionSort EncKeyLe l₁
  · exact List.sorted_insertionSort EncKeyLe l₂
  · intro x hx y hy hxy hyx
    have hx' : x ∈ l₁ := hperm1.subset hx
    have hy' : y ∈ l₁ := hperm1.subset hy
    have henc : url_encode x.1 = url_encode y.1 := strLe_antisymm hxy hyx
    exact List.inj_on_of_nodup_map hn hx' hy' henc

theorem dictSet_fresh (d : List (String × String)) (k v : String)
    (h : d.any (fun p => p.1 = k) = false) : dictSet d k v = d ++ [(k, v)] := by
  rw [dictSet, if_neg]
  simp [h]

theorem dictUpdate_append : ∀ (kvs d : List (String × String)),
    (∀ p ∈ kvs, ∀ q ∈ d, q.1 ≠ p.1) → (kvs.map Prod.fst).Nodup →
    dictUpdate d kvs = d ++ kvs := by
  intro kvs
  induction kvs with
  | nil =>
    intro d _ _
    simp [dictUpdate]
  | cons pv rest ih =>
    intro d hdisj hnd
    obtain ⟨k, v⟩ := pv
    have hany : d.any (fun p => p.1 = k) = false := by
      rw [List.any_eq_false]
      intro q hq
      have := hdisj (k, v) (List.mem_cons_self _ rest) q hq
      simpa using this
    have step : dictUpdate d ((k, v) :: rest) = dictUpdate (dictSet d k v) rest := rfl
    rw [step, dictSet_fresh d k v hany]
    have hnd2 : (k :: rest.map Prod.fst).Nodup := by
      rw [List.map_cons] at hnd
      exact hnd
    have hnd' := List.nodup_cons.mp hnd2
    rw [ih (d ++ [(k, v)]) ?_ hnd'.2]
    · rw [List.append_assoc, List.singleton_append]
    · intro p hp q hq
      rcases List.mem_append.mp hq with hqd | hqk
      · exact hdisj p (List.mem_cons_of_mem _ hp) q hqd
      · have hqe : q = (k, v) := List.mem_singleton.mp hqk
        subst hqe
        intro heq
        apply hnd'.1
        have hpm : p.1 ∈ rest.map Prod.fst := List.mem_map_of_mem Prod.fst hp
        simpa [← heq] using hpm

theorem header_sort_eq (apiKey accessToken nonce timestamp sig : String) :
    List.insertionSort RawItemLe
      (dictSet (oauthBaseParams apiKey accessToken nonce timestamp) "oauth_signature" sig) =
    List.insertionSort RawKeyLe
      (oauthBaseParams apiKey accessToken nonce timestamp ++ [("oauth_signature", sig)]) :=
  rfl

/-! ## C2: the OAuth 1.0a request signer -/

/-- C2: the signature base string is built from the six OAuth parameters
merged with only the query parameters — the JSON body parameter is never
read; percent-encoding leaves alphanumerics and `-._~` unencoded, turns a
space into `%20` and encodes `! * ' ( )`; merged pairs are sorted by encoded
key and joined `key=value` with `&`; the base string is
`UPPERCASEMETHOD&encode(base_url)&encode(param_string)`, the signing key
`encode(consumer_secret)&encode(token_secret)`, the signature
`base64(HMAC-SHA1)`, and the header `OAuth ` plus comma-joined
`key="encoded_value"` pairs sorted by raw key — stated as equality with
`sign_spec`, the construction transcribed from the specification, for every
query-parameter dict (distinct keys, none of them an OAuth parameter
name). -/
theorem oauth_header_matches_spec :
    (∀ (apiKey apiSecret accessToken accessSecret nonce timestamp : String)
      (hmacSha1 : List UInt8 → List UInt8 → List UInt8) (method url : String)
      (params : List (String × String)) (jsonData jsonData' : Option String),
      get_oauth1_auth apiKey apiSecret accessToken accessSecret nonce timestamp
        hmacSha1 method url params jsonData =
      get_oauth1_auth apiKey apiSecret accessToken accessSecret nonce timestamp
        hmacSha1 method url params jsonData') ∧
    (url_encode "AZaz09-._~" = "AZaz09-._~" ∧ url_encode " " = "%20" ∧
      url_encode "!*'()" = "%21%2A%27%28%29") ∧
    (∀ (apiKey apiSecret accessToken accessSecret nonce timestamp : String)
      (hmacSha1 : List UInt8 → List UInt8 → List UInt8) (method url : String)
      (params : List (String × String)) (jsonData : Option String),
      ((params ++ oauthBaseParams apiKey accessToken nonce timestamp).map
        (fun p => url_encode p.1)).Nodup →
      get_oauth1_auth apiKey apiSecret accessToken accessSecret nonce timestamp
        hmacSha1 method url params jsonData =
      sign_spec apiKey apiSecret accessToken accessSecret nonce timestamp
        hmacSha1 method url params) := by
  refine ⟨?_, ⟨rfl, rfl, rfl⟩, ?_⟩
  · intro apiKey apiSecret accessToken accessSecret nonce timestamp hmacSha1 method url
      params jsonData jsonData'
    rfl
  · intro apiKey apiSecret accessToken accessSecret nonce timestamp hmacSha1 method url
      params jsonData hnodup
    have hraw : ((params ++ oauthBaseParams apiKey accessToken nonce timestamp).map
        Prod.fst).Nodup := by
      apply List.Nodup.of_map url_encode
      rw [List.map_map]
      exact hnodup
    rw [List.map_append] at hraw
    obtain ⟨hnp, hno, hdisj⟩ := List.nodup_append.mp hraw
    have hd1 : dictUpdate [] params = params := by
      have := dictUpdate_append params [] (by intro p _ q hq; cases hq) hnp
      simpa using this
    have hd2 : dictUpdate params (oauthBaseParams apiKey accessToken nonce timestamp) =
        params ++ oauthBaseParams apiKey accessToken nonce timestamp := by
      apply dictUpdate_append
      · intro p hp q hq heq
        exact hdisj (List.mem_map_of_mem Prod.fst hq)
          (heq ▸ List.mem_map_of_mem Prod.fst hp)
      · exact List.Nodup.of_map url_encode
          (by rw [List.map_map]; exact (List.nodup_append.mp (by
            rw [← List.map_append]; exact hnodup)).2.1)
    have hsort : List.insertionSort EncKeyLe
        (params ++ oauthBaseParams apiKey accessToken nonce timestamp) =
        List.insertionSort EncKeyLe
        (oauthBaseParams apiKey accessToken nonce timestamp ++ params) :=
      insertionSort_enc_eq _ _ List.perm_append_comm hnodup
    simp only [get_oauth1_auth, sign_spec, hd1, hd2, hsort,
      header_sort_eq apiKey accessToken nonce timestamp]

/-- C2, witness: code and specification construction agree at a concrete
signing request. -/
theorem oauth_header_matches_spec_witness :
    get_oauth1_auth "ck" "cs" "at" "as" "n0" "1700000000" (fun _ _ => []) "post"
      "https://api.twitter.com/2/tweets?x=1" [("a", "1"), ("b c", "d e")] none =
    sign_spec "ck" "cs" "at" "as" "n0" "1700000000" (fun _ _ => []) "post"
      "https://api.twitter.com/2/tweets?x=1" [("a", "1"), ("b c", "d e")] :=
  oauth_header_matches_spec.2.2 "ck" "cs" "at" "as" "n0" "1700000000" (fun _ _ => [])
    "post" "https://api.twitter.com/2/tweets?x=1" [("a", "1"), ("b c", "d e")] none
    (by decide)

end FlareSocial
